import Mathlib

/-!
# Corteza server: DAL driver registry, connection resolution and connection service

A shallow embedding of `pkg/dal/driver.go` (the connector registry, `connect`,
the `ConnectionParams` constructors, `PKValues`), of the sqlite connector
`store/adapters/rdbms/drivers/sqlite/dal.go`, of the connection service
`system/service/dal_connection.go` with the helpers of `system/service/service.go`,
of the connection filter of `system/rest/dal_connection.go` and of the step
constructors of `automation/types/function.go`, with their properties proved
over it.

Conventions of the embedding:

* a Go `string` is the list of its characters (`Str`); the Go sources only search
  for ASCII separators, for which searching characters and searching bytes of
  valid UTF-8 agree;
* the package-level maps `registeredConnectors` and `registeredDrivers`, the
  process environment, the logger's output and the record of connector
  invocations are fields of an explicit `World` that every operation passes on;
* a Go function returning `(T, error)` returns a pair; a run-time panic is the
  `Outcome.panic` result;
* records are values; the calls the connection service makes to its
  collaborators (store, access controller, connection manager, action log) are
  kept, in order, in the `events` of the state it works on.
-/

/-- Go strings as character lists. -/
abbrev Str := List Char

/-! ## The parts of Go's standard library that `connect` calls -/

namespace strings

/-- Go `strings.Index(s, sep)`: the index of the first occurrence of `sep` in `s`,
`none` standing for Go's `-1`. -/
def Index : Str → Str → Option Nat
  | [], sep => if sep.isEmpty then some 0 else none
  | c :: cs, sep =>
    if sep.isPrefixOf (c :: cs) then some 0 else (Index cs sep).map (· + 1)

/-- Go `strings.Contains(s, substr)`, which is `Index(s, substr) >= 0`. -/
def Contains (s substr : Str) : Bool := (Index s substr).isSome

/-- Go `strings.SplitN(s, sep, n)` for a non-empty `sep` and `n ≥ 0`: at most `n`
pieces, the last one holding the unsplit remainder. -/
def SplitN (s sep : Str) : Nat → List Str
  | 0 => []
  | 1 => [s]
  | n + 2 =>
    match Index s sep with
    | none => [s]
    | some m => s.take m :: SplitN (s.drop (m + sep.length)) sep (n + 1)

/-- Go `strings.Replace(s, old, new, n)` for a non-empty `old` and `n ≥ 0`: the
first `n` non-overlapping occurrences of `old` are replaced by `new`. -/
def Replace (s old new : Str) : Nat → Str
  | 0 => s
  | n + 1 =>
    match Index s old with
    | none => s
    | some m => s.take m ++ new ++ Replace (s.drop (m + old.length)) old new n

end strings

namespace regexp

/-- Worker of `ReplaceAllString` for a pattern `[class]+`: `inRun` tells that the
character before the current one belonged to the match being replaced. -/
def replaceRuns (cls : Char → Bool) (repl : Str) : Bool → Str → Str
  | _, [] => []
  | inRun, c :: cs =>
    if cls c then (if inRun then [] else repl) ++ replaceRuns cls repl true cs
    else c :: replaceRuns cls repl false cs

/-- Go `regexp.MustCompile("[class]+").ReplaceAllString(src, repl)` for a
replacement without `$`: every maximal run of characters of the class is
replaced by `repl`. -/
def ReplaceAllString (cls : Char → Bool) (src repl : Str) : Str :=
  replaceRuns cls repl false src

/-- The run flag after reading `x`: whether its last character is of the class,
the flag before it when `x` is empty. -/
def flagAfter (cls : Char → Bool) (fl : Bool) (x : Str) : Bool :=
  x.foldl (fun _ c => cls c) fl

end regexp

namespace strconv

/-- The lower-case hexadecimal digit of `n % 16`. -/
def hexDigit (n : Nat) : Char :=
  if n % 16 < 10 then Char.ofNat (48 + n % 16) else Char.ofNat (87 + n % 16)

/-- The `width` lower-case hexadecimal digits of `n`, most significant first. -/
def hexDigits : Nat → Nat → Str
  | 0, _ => []
  | width + 1, n => hexDigits width (n / 16) ++ [hexDigit n]

/-- Go `strconv.IsPrint(r)`: the ASCII and Latin-1 ranges are decided as Go's
fast path decides them; `wide` stands for Go's Unicode tables, consulted for the
code points above `0xFF` only. -/
def IsPrint (wide : Char → Bool) (r : Char) : Bool :=
  if r.toNat ≤ 0xFF then
    if 0x20 ≤ r.toNat ∧ r.toNat < 0x7F then true
    else if 0xA1 ≤ r.toNat then r.toNat != 0xAD
    else false
  else wide r

/-- Go `strconv.appendEscapedRune` with the double quote as quote character and
without the ASCII-only and graphic-only restrictions, as `Quote` calls it. -/
def appendEscapedRune (wide : Char → Bool) (r : Char) : Str :=
  if r = Char.ofNat 34 ∨ r = Char.ofNat 92 then [Char.ofNat 92, r]
  else if IsPrint wide r then [r]
  else if r.toNat = 7 then [Char.ofNat 92, 'a']
  else if r.toNat = 8 then [Char.ofNat 92, 'b']
  else if r.toNat = 12 then [Char.ofNat 92, 'f']
  else if r.toNat = 10 then [Char.ofNat 92, 'n']
  else if r.toNat = 13 then [Char.ofNat 92, 'r']
  else if r.toNat = 9 then [Char.ofNat 92, 't']
  else if r.toNat = 11 then [Char.ofNat 92, 'v']
  else if r.toNat < 0x20 ∨ r.toNat = 0x7F then
    [Char.ofNat 92, 'x'] ++ hexDigits 2 r.toNat
  else if r.toNat < 0x10000 then [Char.ofNat 92, 'u'] ++ hexDigits 4 r.toNat
  else [Char.ofNat 92, 'U'] ++ hexDigits 8 r.toNat

/-- Go `strconv.Quote(s)`, which the `%q` verb of `fmt` applies to a string: the
string between double quotes, with the quote, the backslash and every
non-printable character escaped. -/
def Quote (wide : Char → Bool) (s : Str) : Str :=
  [Char.ofNat 34] ++ s.flatMap (appendEscapedRune wide) ++ [Char.ofNat 34]

end strconv

namespace fmt

/-- Go `fmt.Sprintf(format, args...)` for formats whose only verb is `%q` and
whose arguments are strings, one per verb. -/
def Sprintf (wide : Char → Bool) : Str → List Str → Str
  | [], _ => []
  | [c], _ => [c]
  | c :: d :: rest, args =>
    if c = '%' ∧ d = 'q' then
      match args with
      | a :: more => strconv.Quote wide a ++ Sprintf wide rest more
      | [] => c :: Sprintf wide (d :: rest) args
    else c :: Sprintf wide (d :: rest) args

end fmt

/-! ## `pkg/dal/driver.go`: the data model -/

namespace dal

/-- Modelled from the spec: the type `capabilities.Capability` (package
`pkg/dal/capabilities` is not among the sources); the spec calls a capability
"an opaque comparable tag", a string tag. -/
abbrev Capability := Str

/-- A Go `error` value. `Errorf` is a value made by `fmt.Errorf(format, args...)`,
kept with its format and arguments; `external` is an error made outside this
package (by a connector), identified by a code and carrying its message. -/
inductive Err where
  | Errorf (format : Str) (args : List Str)
  | external (code : Nat) (msg : Str)
deriving DecidableEq, Repr

/-- The message `err.Error()` gives. -/
def Err.Error (wide : Char → Bool) : Err → Str
  | .Errorf format args => fmt.Sprintf wide format args
  | .external _ msg => msg

/-- A value of Go's `any`, as far as the connection parameters use it: the nil
interface, strings, numbers, booleans and `map[string][]string`. -/
inductive AnyValue where
  | nil
  | string (s : Str)
  | int (n : Int)
  | bool (b : Bool)
  | stringsMap (m : List (Str × List Str))
deriving DecidableEq, Repr

/-- Go `ConnectionParams`; `Params` is a `map[string]any`, `none` being the nil
map and `some kvs` a map holding the listed keys (the first entry of a key
counts). -/
structure ConnectionParams where
  Type_ : Str
  Params : Option (List (Str × AnyValue))
deriving DecidableEq, Repr

/-- The value of the Go index expression `m[key]` on a `map[string]any`: the nil
interface when the map is nil or has no such key. -/
def mapIndex (m : Option (List (Str × AnyValue))) (key : Str) : AnyValue :=
  match m with
  | none => AnyValue.nil
  | some kvs => (kvs.lookup key).getD AnyValue.nil

/-- The single-value type assertion `v.(string)`: `none` is the run-time panic
Go raises when the dynamic type of `v` is not `string`. -/
def assertString : AnyValue → Option Str
  | AnyValue.string s => some s
  | _ => none

/-- A live `Connection`: the interface value a connector hands back, kept as the
identity of the handle and the set `Capabilities()` returns. -/
structure Connection where
  handle : Nat
  Capabilities : List Capability
deriving DecidableEq, Repr

/-- Go `ConnectorFn`, without the context: the `(Connection, error)` pair it
returns for a DSN and the requested capabilities. -/
abbrev ConnectorFn := Str → List Capability → Option Connection × Option Err

/-- Go `DriverConnectionParam`. -/
structure DriverConnectionParam where
  Key : Str
  ValueType : Str
  MultiValue : Bool
deriving DecidableEq, Repr

/-- Go `DriverConnectionConfig`. -/
structure DriverConnectionConfig where
  Type_ : Str
  Params : List DriverConnectionParam
deriving DecidableEq, Repr

/-- Go `Driver`. -/
structure Driver where
  Type_ : Str
  Connection : DriverConnectionConfig
  Capabilities : List Capability
deriving DecidableEq, Repr

/-- One invocation of a registered connector: the key it was registered under
and the arguments it was called with. -/
structure ConnectorCall where
  storeType : Str
  dsn : Str
  capabilities : List Capability
deriving DecidableEq, Repr

/-- Everything `connect` and the registration functions read or write: the two
package-level maps, the process environment (`os.Getenv`), the lines written
through `log.Warn` and the connector invocations made so far. -/
structure World where
  registeredConnectors : Str → Option ConnectorFn
  registeredDrivers : Str → Option Driver
  Getenv : Str → Str
  warnings : List Str
  calls : List ConnectorCall

/-- What a call gives back: a `(Connection, error)` pair, or a run-time panic. -/
inductive Outcome where
  | ret (conn : Option Connection) (err : Option Err)
  | panic
deriving DecidableEq, Repr

/-- The type tag of DSN connection parameters. -/
def dsnType : Str := "corteza::dal:connection:dsn".toList

/-- The separator between the scheme and the rest of a DSN. -/
def schemeSep : Str := [':', '/', '/']

/-- The version placeholder `{version}` of development mode. -/
def versionPlaceholder : Str := "\x7bversion\x7d".toList

/-- The store type an empty scheme falls back to. -/
def legacyStoreType : Str := "mysql".toList

/-- The character class of the pattern `[.\-]+`. -/
def isDotOrDash (c : Char) : Bool := c = '.' ∨ c = '-'

/-- The error of `connect` for parameters that are not of the DSN type. -/
def errOnlyDSN : Err :=
  Err.Errorf "cannot open connection: only DSN connections supported".toList []

/-- The error of `connect` for a store type without a registered connector. -/
def errUnknownStoreType (storeType : Str) : Err :=
  Err.Errorf "unknown store type used: %q (check your storage configuration)".toList
    [storeType]

/-- The three lines `connect` writes through `log.Warn` for a DSN with the
placeholder. -/
def versionWarnings : List Str :=
  ["You\x27re using DB_DSN with \x7bversion\x7d, It is still in EXPERIMENTAL phase".toList,
   "Should be used only for development mode".toList,
   "You may experience instability".toList]

/-! ## `pkg/dal/driver.go`: the operations -/

/-- Go `RegisterConnector(fn, tt...)`: each listed scheme is bound to `fn`, a
binding already there being overwritten. -/
def RegisterConnector (w : World) (fn : ConnectorFn) (tt : List Str) : World :=
  tt.foldl
    (fun w t =>
      { w with registeredConnectors := fun k => if k = t then some fn else w.registeredConnectors k })
    w

/-- Go `RegisterDriver(d)`. -/
def RegisterDriver (w : World) (d : Driver) : World :=
  { w with registeredDrivers := fun k => if k = d.Type_ then some d else w.registeredDrivers k }

/-- The development-mode block of `connect`: the warnings for a DSN holding the
placeholder, and the DSN with the first placeholder replaced by the build
version in which every run of dots and dashes has become an underscore. -/
def developmentDSN (w : World) (dsn : Str) : Str × World :=
  let w1 :=
    if strings.Contains dsn versionPlaceholder then
      { w with warnings := w.warnings ++ versionWarnings }
    else w
  let version := regexp.ReplaceAllString isDotOrDash (w.Getenv "BUILD_VERSION".toList) ['_']
  (strings.Replace dsn versionPlaceholder version 1, w1)

/-- Go `connect(ctx, log, isDevelopment, cp, capabilities...)`. -/
def connect (w : World) (isDevelopment : Bool) (cp : ConnectionParams)
    (capabilities : List Capability) : Outcome × World :=
  if cp.Type_ ≠ dsnType then
    (Outcome.ret none (some errOnlyDSN), w)
  else
    match assertString (mapIndex cp.Params "dsn".toList) with
    | none => (Outcome.panic, w)
    | some dsn0 =>
      let (dsn, w1) := if isDevelopment then developmentDSN w dsn0 else (dsn0, w)
      match strings.SplitN dsn schemeSep 2 with
      | [] => (Outcome.panic, w1)
      | first :: _ =>
        let storeType := if first = [] then legacyStoreType else first
        match w1.registeredConnectors storeType with
        | some conn =>
          (Outcome.ret (conn dsn capabilities).1 (conn dsn capabilities).2,
            { w1 with calls := w1.calls ++ [⟨storeType, dsn, capabilities⟩] })
        | none => (Outcome.ret none (some (errUnknownStoreType storeType)), w1)

/-- Go `NewDSNConnection(dsn)`. -/
def NewDSNConnection (dsn : Str) : ConnectionParams :=
  { Type_ := "corteza::dal:connection:dsn".toList
    Params := some [("dsn".toList, AnyValue.string dsn)] }

/-- Go `NewHTTPConnection(url, headers, query)`. -/
def NewHTTPConnection (url : Str) (headers query : List (Str × List Str)) : ConnectionParams :=
  { Type_ := "corteza::dal:connection:http".toList
    Params := some [("url".toList, AnyValue.string url),
                    ("headers".toList, AnyValue.stringsMap headers),
                    ("query".toList, AnyValue.stringsMap query)] }

/-- Go `NewFederatedNodeCOnnection(url, pairToken, authToken)`. -/
def NewFederatedNodeCOnnection (url pairToken authToken : Str) : ConnectionParams :=
  { Type_ := "corteza::dal:connection:federation-node".toList
    Params := some [("baseURL".toList, AnyValue.string url),
                    ("pairToken".toList, AnyValue.string pairToken),
                    ("authToken".toList, AnyValue.string authToken)] }

/-! ### Names for intermediate values of `connect`, used to state its properties -/

/-- The store type `connect` looks up for the first piece of the split DSN. -/
def storeTypeOf (first : Str) : Str := if first = [] then legacyStoreType else first

/-- The DSN and the world `connect` goes on with after its development-mode block. -/
def preparedDSN (w : World) (isDevelopment : Bool) (dsn0 : Str) : Str × World :=
  if isDevelopment then developmentDSN w dsn0 else (dsn0, w)

/-- The normalization `connect` applies to the build version: every maximal run
of dots and dashes becomes one underscore. -/
def normalizeVersion (v : Str) : Str := regexp.ReplaceAllString isDotOrDash v ['_']

/-- The normalization as the specification words it: every maximal run of
non-alphanumeric characters becomes one underscore. -/
def normalizeAsSpecified (v : Str) : Str :=
  regexp.ReplaceAllString (fun c => !c.isAlphanum) v ['_']

/-- The world with the environment variable `key` set to `value`. -/
def World.setenv (w : World) (key value : Str) : World :=
  { w with Getenv := fun k => if k = key then value else w.Getenv k }

end dal

/-! ## `store/adapters/rdbms/drivers/sqlite/dal.go` -/

namespace sqlite

open dal

/-- What the sqlite connector uses and the sources do not hold: the three scheme
constants of the package, `NewConfig`, `rdbms.Connect`, `Dialect` and
`rdbmsdal.Connection`. Configurations, database handles and dialects are kept
by number; a `(T, error)` result is a pair. -/
structure Deps where
  baseSchema : Str
  altSchema : Str
  debugSchema : Str
  NewConfig : Str → Nat × Option Err
  Connect : Nat → Nat × Option Err
  Dialect : Nat
  Connection : Nat → Nat → Connection

/-- Go `dalConnector(ctx, dsn, cc...)` of the sqlite driver. -/
def dalConnector (d : Deps) : ConnectorFn := fun dsn _cc =>
  match d.NewConfig dsn with
  | (_, some err) => (none, some err)
  | (cfg, none) =>
    match d.Connect cfg with
    | (_, some err) => (none, some err)
    | (db, none) => (some (d.Connection db d.Dialect), none)

/-- Go `init()` of the sqlite driver: the connector is registered for the three
schemes. -/
def init (d : Deps) (w : World) : World :=
  RegisterConnector w (dalConnector d) [d.baseSchema, d.altSchema, d.debugSchema]

end sqlite

/-! ## Concrete values the properties are instantiated at -/

namespace sample

open dal

/-- A connector that answers every DSN with a connection carrying the requested
capabilities. -/
def echoConnector : ConnectorFn := fun dsn cc => (some ⟨dsn.length, cc⟩, none)

/-- A connector that fails on every DSN. -/
def failingConnector : ConnectorFn := fun _ _ => (none, some (Err.external 7 "boom".toList))

/-- A world with no registration at all and an empty environment. -/
def emptyWorld : World :=
  { registeredConnectors := fun _ => none
    registeredDrivers := fun _ => none
    Getenv := fun _ => []
    warnings := []
    calls := [] }

/-- A world where `sqlite3` is bound to `echoConnector` and the build version is
`2022.9.1-rc.2`. -/
def sqliteWorld : World :=
  (RegisterConnector emptyWorld echoConnector ["sqlite3".toList]).setenv
    "BUILD_VERSION".toList "2022.9.1-rc.2".toList

/-- A world where only `mysql` is bound, to `echoConnector`. -/
def mysqlWorld : World := RegisterConnector emptyWorld echoConnector ["mysql".toList]

/-- A sqlite driver whose schemes are `sqlite3`, `sqlite` and `sqlite3+debug`,
whose configuration and connection steps succeed and whose connections support
paging. -/
def sqliteDeps : sqlite.Deps :=
  { baseSchema := "sqlite3".toList
    altSchema := "sqlite".toList
    debugSchema := "sqlite3+debug".toList
    NewConfig := fun dsn => (dsn.length, none)
    Connect := fun cfg => (cfg, none)
    Dialect := 0
    Connection := fun db _ => ⟨db, ["paging".toList]⟩ }

end sample

/-! ## Go values shared by the packages below -/

/-- What a Go call returning `(*T, error)` gives back: the pair, `none` being nil
on either side, or a run-time panic. -/
inductive GoResult (α : Type) where
  | ret (value : Option α) (err : Option dal.Err)
  | panic
deriving DecidableEq, Repr

/-- What a Go call returning a plain value gives back: the value, or a run-time
panic with its message. -/
inductive OrPanic (α : Type) where
  | value (a : α)
  | panic (msg : Str)
deriving DecidableEq, Repr

/-- The Go assignment `m[k] = v` on a map kept as the list of its entries, the
first entry of a key being the one that counts. -/
def mapAssign {V : Type} (m : List (Str × V)) (k : Str) (v : V) : List (Str × V) :=
  (k, v) :: m.filter (fun e => e.1 != k)

/-- A Go `time.Time`: the instant it denotes, in nanoseconds, and the location it
is shown in. -/
structure Time where
  unixNano : Int
  location : Str
deriving DecidableEq, Repr

/-- Go `t.Equal(u)`: the two values denote the same instant, whatever their
locations. -/
def Time.Equal (t u : Time) : Bool := t.unixNano == u.unixNano

/-! ## `pkg/dal/driver.go`: primary-key values and driver connection configs -/

namespace dal

/-- Go `PKValues`, a `map[string]any`, as the list of its entries; the nil map is
the empty list, which Go reads the same way. -/
abbrev PKValues := List (Str × AnyValue)

/-- Go `pkv.CountValues()`: a new map with the entry `1` for every key of `pkv`. -/
def PKValues.CountValues (pkv : PKValues) : List (Str × Nat) :=
  pkv.foldl (fun c e => mapAssign c e.1 1) []

/-- Go `pkv.GetValue(key, _)`: the value and a nil error when `pkv` has the key,
nil and the error `missing` otherwise. -/
def PKValues.GetValue (pkv : PKValues) (key : Str) (_ : Nat) : AnyValue × Option Err :=
  match pkv.lookup key with
  | some val => (val, none)
  | none => (AnyValue.nil, some (Err.Errorf "missing".toList []))

/-- Go `NewDSNDriverConnectionConfig()`. -/
def NewDSNDriverConnectionConfig : DriverConnectionConfig :=
  { Type_ := "corteza::dal:connection:dsn".toList
    Params := [{ Key := "dsn".toList, ValueType := "string".toList, MultiValue := false }] }

/-- The composite literal of the `return` statement of
`NewHTTPDriverConnectionConfig`, which the `panic` before it keeps from being
reached. -/
def httpDriverConnectionConfigLiteral : DriverConnectionConfig :=
  { Type_ := "corteza::dal:connection:http".toList
    Params := [{ Key := [], ValueType := [], MultiValue := false }] }

/-- The composite literal of the `return` statement of
`NewFederatedNodeDriverConnectionConfig`, which the `panic` before it keeps from
being reached. -/
def federatedNodeDriverConnectionConfigLiteral : DriverConnectionConfig :=
  { Type_ := "corteza::dal:connection:federated-node".toList
    Params := [{ Key := [], ValueType := [], MultiValue := false }] }

/-- Go `NewHTTPDriverConnectionConfig()`: it panics before its `return`. -/
def NewHTTPDriverConnectionConfig : OrPanic DriverConnectionConfig :=
  OrPanic.panic "not implemented NewHTTPDriverConnectionConfig".toList

/-- Go `NewFederatedNodeDriverConnectionConfig()`: it panics before its `return`. -/
def NewFederatedNodeDriverConnectionConfig : OrPanic DriverConnectionConfig :=
  OrPanic.panic "not implemented NewFederatedNodeDriverConnectionConfig".toList

end dal

/-! ## `automation/types/function.go`: the step constructors -/

namespace automation

/-- Go `FunctionMeta`, without the `Visual` map. -/
structure FunctionMeta where
  Short : Str
  Description : Str
deriving DecidableEq, Repr

/-- Go `Function`, the definition of a workflow function. The parameter and
result sets and the two handlers, whose types are not among the sources, are
kept by number. -/
structure Function where
  Ref : Str
  Kind : Str
  Meta : Option FunctionMeta
  Parameters : Nat
  Results : Nat
  Handler : Nat
  Iterator : Nat
  Labels : List (Str × Str)
  Disabled : Bool
deriving DecidableEq, Repr

/-- Go `FunctionKindFunction`. -/
def FunctionKindFunction : Str := "function".toList

/-- Go `FunctionKindIterator`. -/
def FunctionKindIterator : Str := "iterator".toList

/-- Go `functionStep`; `E` stands for the type `ExprSet`. The embedded
`wfexec.StepIdentifier` keeps its zero value and is left out. The definition is a
pointer, `none` being nil. -/
structure functionStep (E : Type) where
  def_ : Option Function
  arguments : E
  results : E
deriving DecidableEq, Repr

/-- Go `iteratorStep`; `E` stands for `ExprSet` and `S` for `wfexec.Step`. -/
structure iteratorStep (E S : Type) where
  def_ : Option Function
  arguments : E
  results : E
  next : S
  exit : S
deriving DecidableEq, Repr

/-- Go `FunctionStep(def, arguments, results)`; reading `def.Kind` through a nil
`def` panics. -/
def FunctionStep {E : Type} (def_ : Option Function) (arguments results : E) :
    GoResult (functionStep E) :=
  match def_ with
  | none => GoResult.panic
  | some f =>
    if f.Kind ≠ FunctionKindFunction then
      GoResult.ret none (some (dal.Err.Errorf "expecting function kind".toList []))
    else
      GoResult.ret (some { def_ := def_, arguments := arguments, results := results }) none

/-- Go `IteratorStep(def, arguments, results, next, exit)`. -/
def IteratorStep {E S : Type} (def_ : Option Function) (arguments results : E) (next exit : S) :
    GoResult (iteratorStep E S) :=
  match def_ with
  | none => GoResult.panic
  | some f =>
    if f.Kind ≠ FunctionKindIterator then
      GoResult.ret none (some (dal.Err.Errorf "expecting iterator kind".toList []))
    else
      GoResult.ret
        (some { def_ := def_, arguments := arguments, results := results,
                next := next, exit := exit })
        none

end automation

/-! ## `system/service/service.go`: `isGeneric`, `unwrapGeneric`, `isStale` -/

namespace service

/-- The error values a program holds, by number: for each, what its `IsGeneric()`
method answers (`none` when the value has no such method) and the error
`errors.Unwrap` gives for it (`none` being nil). -/
structure ErrorGraph where
  IsGeneric : Nat → Option Bool
  Unwrap : Nat → Option Nat

/-- Go `isGeneric(err)`; `none` is the nil error. -/
def isGeneric (G : ErrorGraph) : Option Nat → Bool
  | none => false
  | some e => G.IsGeneric e == some true

/-- Go `errors.Unwrap(err)`. -/
def errorsUnwrap (G : ErrorGraph) : Option Nat → Option Nat
  | none => none
  | some e => G.Unwrap e

/-- Go `unwrapGeneric(err)`, its `for` loop run for at most `fuel` rounds; `none`
tells that the rounds did not suffice. -/
def unwrapGeneric (G : ErrorGraph) : Nat → Option Nat → Option (Option Nat)
  | 0, _ => none
  | fuel + 1, err =>
    if isGeneric G err then unwrapGeneric G fuel (errorsUnwrap G err) else some err

/-- The chain of an error: the error itself, the error it wraps, and so on down
to the one that wraps nothing. The nil error has the empty chain. -/
inductive Chain (G : ErrorGraph) : Option Nat → List Nat → Prop where
  | nil : Chain G none []
  | cons (e : Nat) (l : List Nat) : Chain G (G.Unwrap e) l → Chain G (some e) (e :: l)

/-- Go `isStale(new, updatedAt, createdAt)`; the two pointers are options. -/
def isStale (new : Option Time) (updatedAt : Option Time) (createdAt : Time) : Bool :=
  match new with
  | none => false
  | some n =>
    match updatedAt with
    | some u => !n.Equal u
    | none => n.Equal createdAt

/-- The rule the comment on `isStale` documents: data is stale when the new date
does not match `updatedAt` or, before the first update, `createdAt`. -/
def isStaleAsDocumented (new : Option Time) (updatedAt : Option Time) (createdAt : Time) :
    Bool :=
  match new with
  | none => false
  | some n =>
    match updatedAt with
    | some u => !n.Equal u
    | none => !n.Equal createdAt

end service

/-! ## `system/types`: the connection record -/

namespace types

/-- Go `types.ConnectionConfig`, as far as the service reads it: the connection
parameters handed to the connection manager. -/
structure ConnectionConfig where
  Connection : dal.ConnectionParams
deriving DecidableEq, Repr

/-- Modelled from the spec: the connection record `types.DalConnection`, whose
declaration is not among the sources, with the fields the service and the REST
controller read or write. -/
structure DalConnection where
  ID : Nat
  Name : Str
  Handle : Str
  Type_ : Str
  Ownership : Str
  Config : ConnectionConfig
  Capabilities : List dal.Capability
  CreatedAt : Time
  CreatedBy : Nat
  UpdatedAt : Option Time
  UpdatedBy : Nat
  DeletedAt : Option Time
  DeletedBy : Nat
deriving DecidableEq, Repr

end types

/-! ## `system/service/dal_connection.go`: the connection service -/

namespace service

open types

/-- The action properties handed to the error constructors: the records set by
`setConnection` and by the `new` and `update` fields. -/
structure dalConnectionActionProps where
  connection : Option DalConnection
  new : Option DalConnection
  update : Option DalConnection
deriving DecidableEq, Repr

/-- The error values of the service: those its error constructors make (their
declarations are not among the sources; one constructor of this type each, the
wrapped one carrying its cause) and those a collaborator hands over, kept by
number. -/
inductive Error where
  | external (code : Nat)
  | DalConnectionErrInvalidID
  | DalConnectionErrInvalidIDWrap (cause : Error)
  | DalConnectionErrNotFound (props : dalConnectionActionProps)
  | DalConnectionErrNotAllowedToRead (props : dalConnectionActionProps)
  | DalConnectionErrNotAllowedToCreate (props : dalConnectionActionProps)
  | DalConnectionErrNotAllowedToUpdate (props : dalConnectionActionProps)
  | DalConnectionErrNotAllowedToDelete (props : dalConnectionActionProps)
  | DalConnectionErrNotAllowedToUndelete (props : dalConnectionActionProps)
  | DalConnectionErrNotAllowedToSearch
deriving DecidableEq, Repr

/-- The actions the service records. -/
inductive Action where
  | DalConnectionActionLookup
  | DalConnectionActionCreate
  | DalConnectionActionUpdate
  | DalConnectionActionDelete
  | DalConnectionActionSearch
deriving DecidableEq, Repr

/-- One call the service makes to a collaborator, with its arguments: to the
store, to the access controller, to the connection manager or to the action
log. -/
inductive Event where
  | LookupDalConnectionByID (ID : Nat)
  | CreateDalConnection (res : DalConnection)
  | UpdateDalConnection (res : DalConnection)
  | CanCreateDalConnection
  | CanReadDalConnection (res : DalConnection)
  | CanUpdateDalConnection (res : DalConnection)
  | CanDeleteDalConnection (res : DalConnection)
  | AddConnection (connectionID : Nat) (cp : dal.ConnectionParams) (dft : Nat)
      (capabilities : List dal.Capability)
  | UpdateConnection (connectionID : Nat) (cp : dal.ConnectionParams) (dft : Nat)
      (capabilities : List dal.Capability)
  | RemoveConnection (connectionID : Nat)
  | recordAction (action : Action) (err : Option Error)
deriving DecidableEq, Repr

/-- What the collaborators of the service answer; none of them is among the
sources. `S` is the state of the store and `M` that of the connection manager.
The store functions of package `store`, the access controller, the connection
manager behind `svc.dal`, the methods `ConnectionDefaults()` and
`ActiveCapabilities()` of the record (defaults kept by number), and the values
`nextID()`, `now()` and the identity of the context give during one call. A store
lookup gives a record or an error. -/
structure Collaborators (S M : Type) where
  LookupDalConnectionByID : S → Nat → Except Error DalConnection
  CreateDalConnection : S → DalConnection → S × Option Error
  UpdateDalConnection : S → DalConnection → S × Option Error
  CanCreateDalConnection : Bool
  CanReadDalConnection : DalConnection → Bool
  CanUpdateDalConnection : DalConnection → Bool
  CanDeleteDalConnection : DalConnection → Bool
  AddConnection : M → Nat → dal.ConnectionParams → Nat → List dal.Capability → M × Option Error
  UpdateConnection : M → Nat → dal.ConnectionParams → Nat → List dal.Capability →
    M × Option Error
  RemoveConnection : M → Nat → M × Option Error
  ConnectionDefaults : DalConnection → Nat
  ActiveCapabilities : DalConnection → List dal.Capability
  nextID : Nat
  now : Time
  identity : Nat

/-- The state the service works on: the store, the connection manager and the
calls made so far. -/
structure Sys (S M : Type) where
  store : S
  manager : M
  events : List Event

/-- The state with one more call on record. -/
def Sys.emit {S M : Type} (st : Sys S M) (e : Event) : Sys S M :=
  { st with events := st.events ++ [e] }

/-- Go `dalConnection`, the service: besides its collaborators it holds the
primary connection. -/
structure dalConnection where
  primaryConnection : DalConnection
deriving DecidableEq, Repr

/-- Modelled from the spec: `svc.recordAction(ctx, props, action, err)`, which is
not among the sources: the action-log recorder of every call; the spec has the
layer never swallow an error, so the error it is given is the error it
returns. -/
def recordAction {S M : Type} (st : Sys S M) (action : Action) (err : Option Error) :
    Option Error × Sys S M :=
  (err, st.emit (Event.recordAction action err))

/-- The empty action properties. -/
def noProps : dalConnectionActionProps := { connection := none, new := none, update := none }

/-- The record `Create` stores: the given one with a fresh ID and the creation
stamp. -/
def createdRecord {S M : Type} (c : Collaborators S M) (new : DalConnection) : DalConnection :=
  { new with ID := c.nextID, CreatedAt := c.now, CreatedBy := c.identity }

/-- The record `Update` stores: the given one with the update stamp and the
creation time of the stored record. -/
def updatedRecord {S M : Type} (c : Collaborators S M) (upd qq : DalConnection) :
    DalConnection :=
  { upd with UpdatedAt := some c.now, CreatedAt := qq.CreatedAt, UpdatedBy := c.identity }

/-- The record `DeleteByID` stores: the stored one with the deletion stamp. -/
def deletedRecord {S M : Type} (c : Collaborators S M) (q : DalConnection) : DalConnection :=
  { q with DeletedAt := some c.now, DeletedBy := c.identity }

/-- The record `UndeleteByID` stores: the stored one without its deletion time. -/
def undeletedRecord {S M : Type} (c : Collaborators S M) (q : DalConnection) : DalConnection :=
  { q with DeletedAt := none, UpdatedBy := c.identity }

/-- Go `svc.FindByID(ctx, ID)`: the named results `q` and the recorded error. -/
def FindByID {S M : Type} (c : Collaborators S M) (svc : dalConnection) (st : Sys S M)
    (ID : Nat) : (Option DalConnection × Option Error) × Sys S M :=
  let inner : Option DalConnection × Option Error × Sys S M :=
    if ID = 0 then
      (some svc.primaryConnection, none, st)
    else if ID = 0 then
      (none, some Error.DalConnectionErrInvalidID, st)
    else
      let st1 := st.emit (Event.LookupDalConnectionByID ID)
      match c.LookupDalConnectionByID st.store ID with
      | Except.error e => (none, some (Error.DalConnectionErrInvalidIDWrap e), st1)
      | Except.ok q =>
        let st2 := st1.emit (Event.CanReadDalConnection q)
        if !c.CanReadDalConnection q then
          (some q,
            some (Error.DalConnectionErrNotAllowedToRead { noProps with connection := some q }),
            st2)
        else (some q, none, st2)
  ((inner.1, (recordAction inner.2.2 Action.DalConnectionActionLookup inner.2.1).1),
    (recordAction inner.2.2 Action.DalConnectionActionLookup inner.2.1).2)

/-- Go `svc.FindPrimary(ctx)`. -/
def FindPrimary {S M : Type} (svc : dalConnection) (st : Sys S M) :
    (Option DalConnection × Option Error) × Sys S M :=
  ((some svc.primaryConnection, (recordAction st Action.DalConnectionActionLookup none).1),
    (recordAction st Action.DalConnectionActionLookup none).2)

/-- Go `svc.Create(ctx, new)`. -/
def Create {S M : Type} (c : Collaborators S M) (st : Sys S M) (new : DalConnection) :
    (Option DalConnection × Option Error) × Sys S M :=
  let inner : Option DalConnection × Option Error × Sys S M :=
    let st1 := st.emit Event.CanCreateDalConnection
    if !c.CanCreateDalConnection then
      (none, some (Error.DalConnectionErrNotAllowedToCreate { noProps with new := some new }),
        st1)
    else
      let new1 := createdRecord c new
      let st2 := st1.emit (Event.CreateDalConnection new1)
      match c.CreateDalConnection st.store new1 with
      | (s1, some err) => (none, some err, { st2 with store := s1 })
      | (s1, none) =>
        let st3 := ({ st2 with store := s1 } : Sys S M).emit
          (Event.AddConnection new1.ID new1.Config.Connection (c.ConnectionDefaults new1)
            (c.ActiveCapabilities new1))
        let r := c.AddConnection st.manager new1.ID new1.Config.Connection
          (c.ConnectionDefaults new1) (c.ActiveCapabilities new1)
        (some new1, r.2, { st3 with manager := r.1 })
  ((inner.1, (recordAction inner.2.2 Action.DalConnectionActionCreate inner.2.1).1),
    (recordAction inner.2.2 Action.DalConnectionActionCreate inner.2.1).2)

/-- Go `svc.Update(ctx, upd)`. -/
def Update {S M : Type} (c : Collaborators S M) (st : Sys S M) (upd : DalConnection) :
    (Option DalConnection × Option Error) × Sys S M :=
  let inner : Option DalConnection × Option Error × Sys S M :=
    let st1 := st.emit (Event.LookupDalConnectionByID upd.ID)
    match c.LookupDalConnectionByID st.store upd.ID with
    | Except.error _ =>
      (none, some (Error.DalConnectionErrNotFound { noProps with update := some upd }), st1)
    | Except.ok qq =>
      let st2 := st1.emit (Event.CanUpdateDalConnection qq)
      if !c.CanUpdateDalConnection qq then
        (none,
          some (Error.DalConnectionErrNotAllowedToUpdate { noProps with update := some upd }),
          st2)
      else
        let upd1 := updatedRecord c upd qq
        let st3 := st2.emit (Event.UpdateDalConnection upd1)
        match c.UpdateDalConnection st.store upd1 with
        | (s1, some err) => (none, some err, { st3 with store := s1 })
        | (s1, none) =>
          let st4 := ({ st3 with store := s1 } : Sys S M).emit
            (Event.UpdateConnection upd1.ID upd1.Config.Connection (c.ConnectionDefaults upd1)
              (c.ActiveCapabilities upd1))
          let r := c.UpdateConnection st.manager upd1.ID upd1.Config.Connection
            (c.ConnectionDefaults upd1) (c.ActiveCapabilities upd1)
          (some upd1, r.2, { st4 with manager := r.1 })
  ((inner.1, (recordAction inner.2.2 Action.DalConnectionActionUpdate inner.2.1).1),
    (recordAction inner.2.2 Action.DalConnectionActionUpdate inner.2.1).2)

/-- Go `svc.DeleteByID(ctx, ID)`. -/
def DeleteByID {S M : Type} (c : Collaborators S M) (st : Sys S M) (ID : Nat) :
    Option Error × Sys S M :=
  let inner : Option Error × Sys S M :=
    if ID = 0 then
      (some Error.DalConnectionErrInvalidID, st)
    else
      let st1 := st.emit (Event.LookupDalConnectionByID ID)
      match c.LookupDalConnectionByID st.store ID with
      | Except.error e => (some e, st1)
      | Except.ok q =>
        let st2 := st1.emit (Event.CanDeleteDalConnection q)
        if !c.CanDeleteDalConnection q then
          (some (Error.DalConnectionErrNotAllowedToDelete noProps), st2)
        else
          let q1 := deletedRecord c q
          let st3 := st2.emit (Event.UpdateDalConnection q1)
          match c.UpdateDalConnection st.store q1 with
          | (s1, some err) => (some err, { st3 with store := s1 })
          | (s1, none) =>
            let st4 := ({ st3 with store := s1 } : Sys S M).emit (Event.RemoveConnection q1.ID)
            let r := c.RemoveConnection st.manager q1.ID
            (r.2, { st4 with manager := r.1 })
  recordAction inner.2 Action.DalConnectionActionDelete inner.1

/-- Go `svc.UndeleteByID(ctx, ID)`; it records the delete action, as the source
does. -/
def UndeleteByID {S M : Type} (c : Collaborators S M) (st : Sys S M) (ID : Nat) :
    Option Error × Sys S M :=
  let inner : Option Error × Sys S M :=
    if ID = 0 then
      (some Error.DalConnectionErrInvalidID, st)
    else
      let st1 := st.emit (Event.LookupDalConnectionByID ID)
      match c.LookupDalConnectionByID st.store ID with
      | Except.error e => (some e, st1)
      | Except.ok q =>
        let st2 := st1.emit (Event.CanDeleteDalConnection q)
        if !c.CanDeleteDalConnection q then
          (some (Error.DalConnectionErrNotAllowedToUndelete noProps), st2)
        else
          let q1 := undeletedRecord c q
          let st3 := st2.emit (Event.UpdateDalConnection q1)
          match c.UpdateDalConnection st.store q1 with
          | (s1, some err) => (some err, { st3 with store := s1 })
          | (s1, none) =>
            let st4 := ({ st3 with store := s1 } : Sys S M).emit
              (Event.AddConnection q1.ID q1.Config.Connection (c.ConnectionDefaults q1)
                (c.ActiveCapabilities q1))
            let r := c.AddConnection st.manager q1.ID q1.Config.Connection
              (c.ConnectionDefaults q1) (c.ActiveCapabilities q1)
            (r.2, { st4 with manager := r.1 })
  recordAction inner.2 Action.DalConnectionActionDelete inner.1

end service

/-! ## `system/rest/dal_connection.go`: filtering the collected connections -/

namespace rest

open types

/-- The constants `StateExcluded`, `StateInclusive` and `StateExclusive` of package
`filter`, which is not among the sources. -/
structure FilterStates where
  StateExcluded : Nat
  StateInclusive : Nat
  StateExclusive : Nat
deriving DecidableEq, Repr

/-- Modelled from the spec: the filter `types.DalConnectionFilter`, whose
declaration is not among the sources, with the fields `filterConnections` reads;
`Check` is the caller-supplied inclusion predicate, `none` when nil. -/
structure DalConnectionFilter where
  ConnectionID : List Nat
  Handle : Str
  Type_ : Str
  Deleted : Nat
  Check : Option (DalConnection → Bool × Option service.Error)

/-- Go `ctrl.inIDSet(set, target)`. -/
def inIDSet (set : List Nat) (target : Nat) : Bool :=
  set.foldl (fun out id => out || id == target) false

/-- The value of `include` at the end of one round of the loop of
`filterConnections`. -/
def includes (fs : FilterStates) (f : DalConnectionFilter) (conn : DalConnection) : Bool :=
  let include_ := true
  let include_ :=
    if f.ConnectionID.length > 0 then include_ && inIDSet f.ConnectionID conn.ID else include_
  let include_ := if f.Handle ≠ [] then include_ && (f.Handle == conn.Handle) else include_
  let include_ := if f.Type_ ≠ [] then include_ && (f.Type_ == conn.Type_) else include_
  let include_ :=
    if f.Deleted = fs.StateExcluded then include_ && conn.DeletedAt.isNone else include_
  let include_ :=
    if f.Deleted = fs.StateExclusive then include_ && conn.DeletedAt.isSome else include_
  match f.Check with
  | some check => include_ && (check conn).1
  | none => include_

/-- Go `ctrl.filterConnections(baseConnections, f)`; the connections of the set
are taken to be non-nil. -/
def filterConnections (fs : FilterStates) (baseConnections : List DalConnection)
    (f : DalConnectionFilter) : List DalConnection :=
  baseConnections.foldl (fun out conn => if includes fs f conn then out ++ [conn] else out) []

/-- The criteria of a filter as the claim words them: every active criterion
holds of the connection. -/
def satisfies (fs : FilterStates) (f : DalConnectionFilter) (conn : DalConnection) : Prop :=
  (f.ConnectionID ≠ [] → conn.ID ∈ f.ConnectionID) ∧
  (f.Handle ≠ [] → conn.Handle = f.Handle) ∧
  (f.Type_ ≠ [] → conn.Type_ = f.Type_) ∧
  (f.Deleted = fs.StateExcluded → conn.DeletedAt = none) ∧
  (f.Deleted = fs.StateExclusive → conn.DeletedAt ≠ none) ∧
  (∀ check, f.Check = some check → (check conn).1 = true)

end rest

namespace sample

/-- A stored connection record with the given ID. -/
def record (ID : Nat) : types.DalConnection :=
  { ID := ID
    Name := "files".toList
    Handle := "files".toList
    Type_ := "corteza::system:dal-connection".toList
    Ownership := []
    Config := { Connection := dal.NewDSNConnection "sqlite3://file.db".toList }
    Capabilities := ["paging".toList]
    CreatedAt := { unixNano := 100, location := "UTC".toList }
    CreatedBy := 1
    UpdatedAt := none
    UpdatedBy := 0
    DeletedAt := none
    DeletedBy := 0 }

/-- Collaborators over a store that is the list of its records and a manager that
is the list of the connection IDs it holds; every store and manager call
succeeds, and the access controller answers `allow` to every check. -/
def collaborators (allow : Bool) :
    service.Collaborators (List types.DalConnection) (List Nat) :=
  { LookupDalConnectionByID := fun s ID =>
      match s.find? (fun r => r.ID == ID) with
      | some r => Except.ok r
      | none => Except.error (service.Error.external 404)
    CreateDalConnection := fun s r => (s ++ [r], none)
    UpdateDalConnection := fun s r => (s.map (fun x => if x.ID = r.ID then r else x), none)
    CanCreateDalConnection := allow
    CanReadDalConnection := fun _ => allow
    CanUpdateDalConnection := fun _ => allow
    CanDeleteDalConnection := fun _ => allow
    AddConnection := fun m ID _ _ _ => (m ++ [ID], none)
    UpdateConnection := fun m _ _ _ _ => (m, none)
    RemoveConnection := fun m ID => (m.filter (fun x => x != ID), none)
    ConnectionDefaults := fun _ => 0
    ActiveCapabilities := fun r => r.Capabilities
    nextID := 42
    now := { unixNano := 200, location := "UTC".toList }
    identity := 7 }

/-- A state whose store holds the record 5, which the manager holds too. -/
def sys : service.Sys (List types.DalConnection) (List Nat) :=
  { store := [record 5], manager := [5], events := [] }

end sample

namespace sample

/-- Three errors: 1 and 2 are generic and wrap the next one, 3 is not generic
and wraps nothing. -/
def errorGraph : service.ErrorGraph :=
  { IsGeneric := fun e => if e < 3 then some true else none
    Unwrap := fun e => if e < 3 then some (e + 1) else none }

end sample

/-! ## Lemmas on the string functions -/

namespace strings

theorem Index_nil_cons (a : Char) (t : Str) : Index [] (a :: t) = none := by
  simp [Index]

theorem Index_cons_eq_none {c : Char} {cs sep : Str} (h : Index (c :: cs) sep = none) :
    sep.isPrefixOf (c :: cs) = false ∧ Index cs sep = none := by
  unfold Index at h
  by_cases hp : sep.isPrefixOf (c :: cs) = true
  · simp [hp] at h
  · simp only [hp] at h
    refine ⟨Bool.eq_false_iff.mpr hp, ?_⟩
    cases hi : Index cs sep with
    | none => rfl
    | some m => simp [hi] at h

/-- A separator whose first character does not occur again in it is found, in
`pre ++ sep ++ post`, right after `pre` when `pre` itself holds no occurrence. -/
theorem Index_append_sep (a : Char) (t pre post : Str) (ha : a ∉ t)
    (h : Index pre (a :: t) = none) :
    Index (pre ++ (a :: t) ++ post) (a :: t) = some pre.length := by
  induction pre with
  | nil =>
    have hp : (a :: t).isPrefixOf (a :: t ++ post) = true := by
      rw [List.isPrefixOf_iff_prefix]; exact List.prefix_append _ _
    simp only [List.nil_append, List.length_nil]
    show Index (a :: (t ++ post)) (a :: t) = some 0
    unfold Index
    simp only [List.cons_append] at hp
    simp [hp]
  | cons c pre ih =>
    obtain ⟨hnp, hrest⟩ := Index_cons_eq_none h
    have ih1 := ih hrest
    have hnp2 : (a :: t).isPrefixOf (c :: (pre ++ (a :: t) ++ post)) = false := by
      cases hq : (a :: t).isPrefixOf (c :: (pre ++ (a :: t) ++ post)) with
      | false => rfl
      | true =>
        exfalso
        rw [List.isPrefixOf_iff_prefix] at hq
        have hnp1 : ¬ (a :: t) <+: (c :: pre) := by
          intro hx
          rw [← List.isPrefixOf_iff_prefix] at hx
          rw [hx] at hnp
          exact Bool.noConfusion hnp
        rw [List.cons_prefix_cons] at hq
        obtain ⟨hac, ht⟩ := hq
        have hpre : pre <+: pre ++ (a :: t) ++ post := by
          rw [List.append_assoc]; exact List.prefix_append _ _
        rcases List.prefix_or_prefix_of_prefix ht hpre with h1 | h1
        · exact hnp1 (by rw [List.cons_prefix_cons]; exact ⟨hac, h1⟩)
        · obtain ⟨r, hr⟩ := h1
          rw [← hr, List.append_assoc, List.prefix_append_right_inj] at ht
          cases r with
          | nil =>
            apply hnp1
            rw [List.cons_prefix_cons]
            refine ⟨hac, ?_⟩
            rw [← hr, List.append_nil]
          | cons b r =>
            rw [List.cons_append, List.cons_prefix_cons] at ht
            apply ha
            rw [← hr, ← ht.1]
            simp
    show Index (c :: (pre ++ (a :: t) ++ post)) (a :: t) = some (pre.length + 1)
    unfold Index
    rw [hnp2, ih1]
    simp

/-- An occurrence found by `Index` splits the string: what stands before it holds
no occurrence of the (non-empty) separator. -/
theorem Index_some_split {s sep : Str} {m : Nat} (hsep : sep ≠ []) (h : Index s sep = some m) :
    ∃ pre post, s = pre ++ sep ++ post ∧ pre.length = m ∧ Index pre sep = none := by
  induction s generalizing m with
  | nil =>
    cases sep with
    | nil => exact absurd rfl hsep
    | cons a t => simp [Index] at h
  | cons c cs ih =>
    have hnil : Index [] sep = none := by
      cases sep with
      | nil => exact absurd rfl hsep
      | cons a t => simp [Index]
    unfold Index at h
    by_cases hp : sep.isPrefixOf (c :: cs) = true
    · rw [if_pos hp] at h
      obtain ⟨post, hpost⟩ := List.isPrefixOf_iff_prefix.mp hp
      exact ⟨[], post, by simpa using hpost.symm, by simpa using (Option.some.inj h), hnil⟩
    · rw [if_neg hp] at h
      cases hi : Index cs sep with
      | none => simp [hi] at h
      | some k =>
        obtain ⟨pre, post, hs, hlen, hnone⟩ := ih hi
        have hm : m = k + 1 := by simpa [hi] using h.symm
        refine ⟨c :: pre, post, by rw [hs]; rfl, by simp [hlen, hm], ?_⟩
        unfold Index
        have hnp : sep.isPrefixOf (c :: pre) = false := by
          cases hq : sep.isPrefixOf (c :: pre) with
          | false => rfl
          | true =>
            exfalso
            apply hp
            rw [List.isPrefixOf_iff_prefix] at hq ⊢
            rw [hs, List.append_assoc]
            exact hq.trans (List.prefix_append _ _)
        rw [hnp, hnone]
        rfl

theorem SplitN_two_of_none {s sep : Str} (h : Index s sep = none) : SplitN s sep 2 = [s] := by
  simp [SplitN, h]

theorem SplitN_two_of_some {s sep : Str} {m : Nat} (h : Index s sep = some m) :
    SplitN s sep 2 = [s.take m, s.drop (m + sep.length)] := by
  simp [SplitN, h]

/-- `SplitN(s, sep, 2)` never gives an empty slice. -/
theorem SplitN_two_ne_nil (s sep : Str) : SplitN s sep 2 ≠ [] := by
  cases h : Index s sep with
  | none => simp [SplitN_two_of_none h]
  | some m => simp [SplitN_two_of_some h]

theorem Replace_of_none {s old : Str} (new : Str) (n : Nat) (h : Index s old = none) :
    Replace s old new n = s := by
  cases n with
  | zero => rfl
  | succ n => simp [Replace, h]

theorem Replace_one_of_some {s old : Str} (new : Str) {m : Nat} (h : Index s old = some m) :
    Replace s old new 1 = s.take m ++ new ++ s.drop (m + old.length) := by
  simp [Replace, h]

theorem Contains_eq_false {s sub : Str} : Contains s sub = false ↔ Index s sub = none := by
  unfold Contains
  cases Index s sub <;> simp

end strings

/-! ## Lemmas on the registry and on `connect` -/

namespace dal

theorem RegisterConnector_lookup (w : World) (fn : ConnectorFn) (tt : List Str) (k : Str) :
    (RegisterConnector w fn tt).registeredConnectors k =
      if k ∈ tt then some fn else w.registeredConnectors k := by
  unfold RegisterConnector
  induction tt generalizing w with
  | nil => simp
  | cons t tt ih =>
    rw [List.foldl_cons, ih]
    by_cases hk : k ∈ tt
    · simp [hk]
    · by_cases hkt : k = t
      · simp [hkt]
      · simp [hk, hkt]

theorem RegisterConnector_frame (w : World) (fn : ConnectorFn) (tt : List Str) :
    (RegisterConnector w fn tt).registeredDrivers = w.registeredDrivers ∧
    (RegisterConnector w fn tt).Getenv = w.Getenv ∧
    (RegisterConnector w fn tt).warnings = w.warnings ∧
    (RegisterConnector w fn tt).calls = w.calls := by
  unfold RegisterConnector
  induction tt generalizing w with
  | nil => simp
  | cons t tt ih =>
    rw [List.foldl_cons]
    exact ih _

theorem developmentDSN_frame (w : World) (dsn : Str) :
    (developmentDSN w dsn).2.registeredConnectors = w.registeredConnectors ∧
    (developmentDSN w dsn).2.registeredDrivers = w.registeredDrivers ∧
    (developmentDSN w dsn).2.Getenv = w.Getenv ∧
    (developmentDSN w dsn).2.calls = w.calls := by
  unfold developmentDSN
  by_cases h : strings.Contains dsn versionPlaceholder = true <;> simp [h]

theorem preparedDSN_frame (w : World) (dev : Bool) (dsn : Str) :
    (preparedDSN w dev dsn).2.registeredConnectors = w.registeredConnectors ∧
    (preparedDSN w dev dsn).2.registeredDrivers = w.registeredDrivers ∧
    (preparedDSN w dev dsn).2.Getenv = w.Getenv ∧
    (preparedDSN w dev dsn).2.calls = w.calls := by
  unfold preparedDSN
  cases dev
  · simp
  · simpa using developmentDSN_frame w dsn

/-- What `connect` does once the type tag is the DSN one and the `dsn` entry is a
string: the lookup of the store type decides. -/
theorem connect_dsn (w : World) (dev : Bool) (cp : ConnectionParams) (cc : List Capability)
    (dsn0 first : Str) (rest : List Str)
    (hT : cp.Type_ = dsnType)
    (hD : assertString (mapIndex cp.Params "dsn".toList) = some dsn0)
    (hS : strings.SplitN (preparedDSN w dev dsn0).1 schemeSep 2 = first :: rest) :
    connect w dev cp cc =
      match w.registeredConnectors (storeTypeOf first) with
      | some conn =>
        (Outcome.ret (conn (preparedDSN w dev dsn0).1 cc).1 (conn (preparedDSN w dev dsn0).1 cc).2,
          { (preparedDSN w dev dsn0).2 with
            calls := w.calls ++ [⟨storeTypeOf first, (preparedDSN w dev dsn0).1, cc⟩] })
      | none => (Outcome.ret none (some (errUnknownStoreType (storeTypeOf first))),
          (preparedDSN w dev dsn0).2) := by
  obtain ⟨hc, -, -, hcalls⟩ := preparedDSN_frame w dev dsn0
  unfold connect
  rw [if_neg (by simp [hT]), hD]
  simp only []
  unfold preparedDSN at hS hc hcalls ⊢
  generalize (if dev = true then developmentDSN w dsn0 else (dsn0, w)) = p at hS hc hcalls ⊢
  obtain ⟨dsn, w1⟩ := p
  simp only [] at hS hc hcalls ⊢
  rw [hS]
  simp only [storeTypeOf, hc, hcalls]

theorem assertString_NewDSNConnection (dsn : Str) :
    assertString (mapIndex (NewDSNConnection dsn).Params "dsn".toList) = some dsn := by
  simp [NewDSNConnection, mapIndex, assertString]

end dal

/-! ## Lemmas on quoting and on the prepared DSN -/

namespace strconv

theorem appendEscapedRune_plain (wide : Char → Bool) (c : Char)
    (h : IsPrint wide c = true ∧ c ≠ Char.ofNat 34 ∧ c ≠ Char.ofNat 92) :
    appendEscapedRune wide c = [c] := by
  unfold appendEscapedRune
  rw [if_neg (by simp [h.2.1, h.2.2]), if_pos h.1]

/-- A string of printable characters other than the double quote and the
backslash is quoted by putting it between double quotes. -/
theorem Quote_plain (wide : Char → Bool) (s : Str)
    (h : ∀ c ∈ s, IsPrint wide c = true ∧ c ≠ Char.ofNat 34 ∧ c ≠ Char.ofNat 92) :
    Quote wide s = [Char.ofNat 34] ++ s ++ [Char.ofNat 34] := by
  have hflat : s.flatMap (appendEscapedRune wide) = s := by
    induction s with
    | nil => rfl
    | cons c s ih =>
      rw [List.flatMap_cons, appendEscapedRune_plain wide c (h c (List.mem_cons_self _ _)),
        ih (fun d hd => h d (List.mem_cons_of_mem _ hd))]
      rfl
  unfold Quote
  rw [hflat]

end strconv

namespace dal

theorem Error_errUnknownStoreType (wide : Char → Bool) (s : Str) :
    (errUnknownStoreType s).Error wide =
      "unknown store type used: ".toList ++ strconv.Quote wide s ++
        " (check your storage configuration)".toList := rfl

theorem preparedDSN_nondev (w : World) (dsn : Str) : preparedDSN w false dsn = (dsn, w) := rfl

theorem preparedDSN_no_placeholder (w : World) (dev : Bool) (dsn : Str)
    (h : dev = false ∨ strings.Contains dsn versionPlaceholder = false) :
    preparedDSN w dev dsn = (dsn, w) := by
  cases dev with
  | false => rfl
  | true =>
    have hc : strings.Contains dsn versionPlaceholder = false := by
      rcases h with h | h
      · exact Bool.noConfusion h
      · exact h
    show developmentDSN w dsn = (dsn, w)
    unfold developmentDSN
    simp [hc, strings.Replace_of_none _ _ (strings.Contains_eq_false.mp hc)]

theorem connect_dsn_some (w : World) (dev : Bool) (cp : ConnectionParams)
    (cc : List Capability) (dsn0 first : Str) (rest : List Str) (f : ConnectorFn)
    (hT : cp.Type_ = dsnType)
    (hD : assertString (mapIndex cp.Params "dsn".toList) = some dsn0)
    (hS : strings.SplitN (preparedDSN w dev dsn0).1 schemeSep 2 = first :: rest)
    (hf : w.registeredConnectors (storeTypeOf first) = some f) :
    connect w dev cp cc =
      (Outcome.ret (f (preparedDSN w dev dsn0).1 cc).1 (f (preparedDSN w dev dsn0).1 cc).2,
        { (preparedDSN w dev dsn0).2 with
          calls := w.calls ++ [⟨storeTypeOf first, (preparedDSN w dev dsn0).1, cc⟩] }) := by
  rw [connect_dsn w dev cp cc dsn0 first rest hT hD hS, hf]

theorem connect_dsn_none (w : World) (dev : Bool) (cp : ConnectionParams)
    (cc : List Capability) (dsn0 first : Str) (rest : List Str)
    (hT : cp.Type_ = dsnType)
    (hD : assertString (mapIndex cp.Params "dsn".toList) = some dsn0)
    (hS : strings.SplitN (preparedDSN w dev dsn0).1 schemeSep 2 = first :: rest)
    (hf : w.registeredConnectors (storeTypeOf first) = none) :
    connect w dev cp cc =
      (Outcome.ret none (some (errUnknownStoreType (storeTypeOf first))),
        (preparedDSN w dev dsn0).2) := by
  rw [connect_dsn w dev cp cc dsn0 first rest hT hD hS, hf]

theorem connect_of_other_type (w : World) (dev : Bool) (cp : ConnectionParams)
    (cc : List Capability) (h : cp.Type_ ≠ dsnType) :
    connect w dev cp cc = (Outcome.ret none (some errOnlyDSN), w) := by
  unfold connect
  rw [if_pos h]

end dal

namespace dal

theorem Index_scheme (s rest : Str) (hsep : strings.Contains s schemeSep = false) :
    strings.Index (s ++ schemeSep ++ rest) schemeSep = some s.length :=
  strings.Index_append_sep ':' ['/', '/'] s rest (by decide)
    (strings.Contains_eq_false.mp hsep)

theorem SplitN_scheme (s rest : Str) (hsep : strings.Contains s schemeSep = false) :
    strings.SplitN (s ++ schemeSep ++ rest) schemeSep 2 = [s, rest] := by
  rw [strings.SplitN_two_of_some (Index_scheme s rest hsep)]
  simp [List.append_assoc, List.take_left']

theorem Index_schemeSep_placeholder (rest : Str) :
    strings.Index (schemeSep ++ rest) versionPlaceholder =
      (strings.Index rest versionPlaceholder).map (· + 3) := by
  simp [strings.Index, schemeSep, versionPlaceholder, List.isPrefixOf]

theorem Index_nil_placeholder : strings.Index [] versionPlaceholder = none := by decide

/-- The development-mode substitution keeps an empty scheme empty: a DSN that is
empty or starts with `://` still is, or does, once prepared, so its first piece
is empty. -/
theorem SplitN_prepared_empty_scheme (w : World) (dev : Bool) (dsn0 : Str)
    (h : dsn0 = [] ∨ ∃ rest, dsn0 = schemeSep ++ rest) :
    ∃ rest, strings.SplitN (preparedDSN w dev dsn0).1 schemeSep 2 = [] :: rest := by
  have key : (preparedDSN w dev dsn0).1 = [] ∨
      ∃ rest, (preparedDSN w dev dsn0).1 = schemeSep ++ rest := by
    cases dev with
    | false => exact h
    | true =>
      show (developmentDSN w dsn0).1 = [] ∨ ∃ rest, (developmentDSN w dsn0).1 = schemeSep ++ rest
      unfold developmentDSN
      simp only []
      rcases h with h | ⟨rest, h⟩
      · left
        rw [h, strings.Replace_of_none _ _ Index_nil_placeholder]
      · right
        subst h
        cases hi : strings.Index rest versionPlaceholder with
        | none =>
          have hi2 : strings.Index (schemeSep ++ rest) versionPlaceholder = none := by
            rw [Index_schemeSep_placeholder, hi]; rfl
          exact ⟨rest, by rw [strings.Replace_of_none _ _ hi2]⟩
        | some m =>
          have hi2 : strings.Index (schemeSep ++ rest) versionPlaceholder = some (m + 3) := by
            rw [Index_schemeSep_placeholder, hi]; rfl
          rw [strings.Replace_one_of_some _ hi2]
          have ht : (schemeSep ++ rest).take (m + 3) = schemeSep ++ rest.take m := by
            simp [schemeSep, List.take_succ_cons]
          rw [ht]
          exact ⟨rest.take m ++
              (regexp.ReplaceAllString isDotOrDash (w.Getenv "BUILD_VERSION".toList) ['_'] ++
                (schemeSep ++ rest).drop (m + 3 + versionPlaceholder.length)),
            by simp only [List.append_assoc]⟩
  rcases key with h0 | ⟨rest, h1⟩
  · rw [h0]
    exact ⟨[], by decide⟩
  · rw [h1]
    have := SplitN_scheme [] rest (by decide)
    simp only [List.nil_append] at this
    exact ⟨[rest], this⟩

end dal

/-! ## Lemmas on the replacement of runs -/

namespace regexp

theorem flagAfter_eq (cls : Char → Bool) (fl : Bool) (x : Str) :
    flagAfter cls fl x = match x.getLast? with | none => fl | some c => cls c := by
  rcases List.eq_nil_or_concat x with h | ⟨init, l, h⟩
  · subst h; rfl
  · subst h
    simp [flagAfter, List.foldl_append]

theorem replaceRuns_append (cls : Char → Bool) (repl : Str) (fl : Bool) (x y : Str) :
    replaceRuns cls repl fl (x ++ y) =
      replaceRuns cls repl fl x ++ replaceRuns cls repl (flagAfter cls fl x) y := by
  induction x generalizing fl with
  | nil => rfl
  | cons c x ih =>
    have hf : flagAfter cls fl (c :: x) = flagAfter cls (cls c) x := rfl
    rw [hf]
    by_cases hc : cls c = true
    · rw [List.cons_append, replaceRuns, replaceRuns, if_pos hc, if_pos hc, ih true,
        List.append_assoc, hc]
    · rw [List.cons_append, replaceRuns, replaceRuns, if_neg hc, if_neg hc, ih false,
        List.cons_append]
      simp [hc]

theorem replaceRuns_of_not_class (cls : Char → Bool) (repl : Str) (fl : Bool) (u : Str)
    (h : ∀ c ∈ u, cls c = false) : replaceRuns cls repl fl u = u := by
  induction u generalizing fl with
  | nil => rfl
  | cons c u ih =>
    have hc : cls c = false := h c (List.mem_cons_self _ _)
    simp [replaceRuns, hc, ih false (fun d hd => h d (List.mem_cons_of_mem _ hd))]

theorem replaceRuns_run (cls : Char → Bool) (repl : Str) (r : Str)
    (h : ∀ c ∈ r, cls c = true) : replaceRuns cls repl true r = [] := by
  induction r with
  | nil => rfl
  | cons c r ih =>
    have hc : cls c = true := h c (List.mem_cons_self _ _)
    simp [replaceRuns, hc, ih (fun d hd => h d (List.mem_cons_of_mem _ hd))]

theorem replaceRuns_flag_irrelevant (cls : Char → Bool) (repl : Str) (fl : Bool) (b : Str)
    (h : ∀ c, b.head? = some c → cls c = false) :
    replaceRuns cls repl fl b = replaceRuns cls repl false b := by
  cases b with
  | nil => rfl
  | cons c b =>
    have hc : cls c = false := h c rfl
    simp [replaceRuns, hc]

/-- One maximal run: `a` does not end and `b` does not start with a character of
the class, `r` is a non-empty run of the class. -/
theorem ReplaceAllString_run (cls : Char → Bool) (repl a r b : Str)
    (ha : ∀ c, a.getLast? = some c → cls c = false)
    (hr : r ≠ []) (hrun : ∀ c ∈ r, cls c = true)
    (hb : ∀ c, b.head? = some c → cls c = false) :
    ReplaceAllString cls (a ++ r ++ b) repl =
      ReplaceAllString cls a repl ++ repl ++ ReplaceAllString cls b repl := by
  unfold ReplaceAllString
  rw [replaceRuns_append, replaceRuns_append]
  have h1 : flagAfter cls false a = false := by
    rw [flagAfter_eq]
    cases hl : a.getLast? with
    | none => rfl
    | some c => exact ha c hl
  have h2 : flagAfter cls false (a ++ r) = true := by
    rw [flagAfter_eq, List.getLast?_append_of_ne_nil _ hr]
    cases hl : r.getLast? with
    | none => exact absurd (List.getLast?_eq_none_iff.mp hl) hr
    | some c => exact hrun c (List.mem_of_getLast?_eq_some hl)
  rw [h1, h2, replaceRuns_flag_irrelevant cls repl true b hb]
  cases r with
  | nil => exact absurd rfl hr
  | cons c r =>
    have hc : cls c = true := hrun c (List.mem_cons_self _ _)
    simp [replaceRuns, hc, replaceRuns_run cls repl r (fun d hd => hrun d (List.mem_cons_of_mem _ hd))]

end regexp

namespace dal

theorem Index_placeholder (pre post : Str)
    (h : strings.Contains pre versionPlaceholder = false) :
    strings.Index (pre ++ versionPlaceholder ++ post) versionPlaceholder = some pre.length :=
  strings.Index_append_sep (Char.ofNat 123) ("version".toList ++ [Char.ofNat 125]) pre post
    (by decide) (strings.Contains_eq_false.mp h)

/-- The development-mode block on a DSN holding the placeholder: the three
warnings are written and the first placeholder is replaced by the normalized
build version. -/
theorem developmentDSN_placeholder (w : World) (pre post : Str)
    (h : strings.Contains pre versionPlaceholder = false) :
    developmentDSN w (pre ++ versionPlaceholder ++ post) =
      (pre ++ normalizeVersion (w.Getenv "BUILD_VERSION".toList) ++ post,
        { w with warnings := w.warnings ++ versionWarnings }) := by
  have hi := Index_placeholder pre post h
  have hc : strings.Contains (pre ++ versionPlaceholder ++ post) versionPlaceholder = true := by
    unfold strings.Contains
    rw [hi]
    rfl
  unfold developmentDSN
  simp only [hc, if_true]
  rw [strings.Replace_one_of_some _ hi]
  have ht : (pre ++ versionPlaceholder ++ post).take pre.length = pre := by
    rw [List.append_assoc, List.take_left']
    rfl
  have hd : (pre ++ versionPlaceholder ++ post).drop (pre.length + versionPlaceholder.length)
      = post := by
    rw [← List.length_append, List.drop_left']
    rfl
  rw [ht, hd]
  rfl

end dal

/-! ## Lemmas on what `connect` reads and writes -/

namespace dal

theorem connect_dsn_panic (w : World) (dev : Bool) (cp : ConnectionParams)
    (cc : List Capability) (hT : cp.Type_ = dsnType)
    (hD : assertString (mapIndex cp.Params "dsn".toList) = none) :
    connect w dev cp cc = (Outcome.panic, w) := by
  unfold connect
  rw [if_neg (by simp [hT]), hD]

theorem preparedDSN_fst_congr (w w2 : World) (dev : Bool) (dsn : Str)
    (h : w.Getenv = w2.Getenv) : (preparedDSN w dev dsn).1 = (preparedDSN w2 dev dsn).1 := by
  cases dev with
  | false => rfl
  | true =>
    show (developmentDSN w dsn).1 = (developmentDSN w2 dsn).1
    unfold developmentDSN
    simp only [h]

theorem SplitN_prepared_cons (w : World) (dev : Bool) (dsn0 : Str) :
    ∃ first rest, strings.SplitN (preparedDSN w dev dsn0).1 schemeSep 2 = first :: rest := by
  cases h : strings.SplitN (preparedDSN w dev dsn0).1 schemeSep 2 with
  | nil => exact absurd h (strings.SplitN_two_ne_nil _ _)
  | cons first rest => exact ⟨first, rest, rfl⟩

/-- The pair `connect` returns depends on the world through the connector map and
the environment only. -/
theorem connect_outcome_congr (w w2 : World) (dev : Bool) (cp : ConnectionParams)
    (cc : List Capability) (hreg : w.registeredConnectors = w2.registeredConnectors)
    (henv : w.Getenv = w2.Getenv) :
    (connect w dev cp cc).1 = (connect w2 dev cp cc).1 := by
  by_cases hT : cp.Type_ = dsnType
  · cases hD : assertString (mapIndex cp.Params "dsn".toList) with
    | none => rw [connect_dsn_panic w dev cp cc hT hD, connect_dsn_panic w2 dev cp cc hT hD]
    | some dsn0 =>
      obtain ⟨first, rest, hS⟩ := SplitN_prepared_cons w dev dsn0
      have hS2 : strings.SplitN (preparedDSN w2 dev dsn0).1 schemeSep 2 = first :: rest := by
        rw [← preparedDSN_fst_congr w w2 dev dsn0 henv]; exact hS
      rw [connect_dsn w dev cp cc dsn0 first rest hT hD hS,
        connect_dsn w2 dev cp cc dsn0 first rest hT hD hS2, ← hreg,
        ← preparedDSN_fst_congr w w2 dev dsn0 henv]
      cases w.registeredConnectors (storeTypeOf first) <;> rfl
  · rw [connect_of_other_type w dev cp cc hT, connect_of_other_type w2 dev cp cc hT]

/-- `connect` writes neither of the two maps nor the environment. -/
theorem connect_frame (w : World) (dev : Bool) (cp : ConnectionParams)
    (cc : List Capability) :
    (connect w dev cp cc).2.registeredConnectors = w.registeredConnectors ∧
    (connect w dev cp cc).2.registeredDrivers = w.registeredDrivers ∧
    (connect w dev cp cc).2.Getenv = w.Getenv := by
  by_cases hT : cp.Type_ = dsnType
  · cases hD : assertString (mapIndex cp.Params "dsn".toList) with
    | none => rw [connect_dsn_panic w dev cp cc hT hD]; exact ⟨rfl, rfl, rfl⟩
    | some dsn0 =>
      obtain ⟨first, rest, hS⟩ := SplitN_prepared_cons w dev dsn0
      obtain ⟨h1, h2, h3, -⟩ := preparedDSN_frame w dev dsn0
      rw [connect_dsn w dev cp cc dsn0 first rest hT hD hS]
      cases w.registeredConnectors (storeTypeOf first) <;> exact ⟨h1, h2, h3⟩
  · rw [connect_of_other_type w dev cp cc hT]; exact ⟨rfl, rfl, rfl⟩

theorem connect_nondev_env (w : World) (g : Str → Str) (cp : ConnectionParams)
    (cc : List Capability) :
    connect { w with Getenv := g } false cp cc =
      ((connect w false cp cc).1, { (connect w false cp cc).2 with Getenv := g }) := by
  by_cases hT : cp.Type_ = dsnType
  · cases hD : assertString (mapIndex cp.Params "dsn".toList) with
    | none => rw [connect_dsn_panic _ false cp cc hT hD, connect_dsn_panic w false cp cc hT hD]
    | some dsn0 =>
      obtain ⟨first, rest, hS⟩ := SplitN_prepared_cons w false dsn0
      have hS2 : strings.SplitN (preparedDSN { w with Getenv := g } false dsn0).1 schemeSep 2
          = first :: rest := hS
      rw [connect_dsn w false cp cc dsn0 first rest hT hD hS,
        connect_dsn _ false cp cc dsn0 first rest hT hD hS2]
      show (match w.registeredConnectors (storeTypeOf first) with
        | some conn => _
        | none => _) = _
      cases w.registeredConnectors (storeTypeOf first) <;> rfl
  · rw [connect_of_other_type _ false cp cc hT, connect_of_other_type w false cp cc hT]

end dal

/-! ## Properties of the registry and of connection resolution -/

namespace dal

/-- C1: outside development mode, a DSN `s://rest` whose non-empty scheme `s` holds
no `://` and is bound to the connector `f` makes `connect` return exactly the
pair `f` returns for the unchanged DSN and the requested capabilities (the
connection on success, the error of `f` itself on failure); `f` is the one
connector invoked, once, with those arguments. -/
theorem connect_dispatches_to_registered (w : World) (s rest : Str) (f : ConnectorFn)
    (cc : List Capability) (hs : s ≠ []) (hsep : strings.Contains s schemeSep = false)
    (hf : w.registeredConnectors s = some f) :
    connect w false (NewDSNConnection (s ++ schemeSep ++ rest)) cc =
      (Outcome.ret (f (s ++ schemeSep ++ rest) cc).1 (f (s ++ schemeSep ++ rest) cc).2,
        { w with calls := w.calls ++ [⟨s, s ++ schemeSep ++ rest, cc⟩] }) := by
  have hS : strings.SplitN (preparedDSN w false (s ++ schemeSep ++ rest)).1 schemeSep 2
      = s :: [rest] := SplitN_scheme s rest hsep
  rw [connect_dsn w false _ cc _ s [rest] rfl (assertString_NewDSNConnection _) hS]
  have hst : storeTypeOf s = s := by simp [storeTypeOf, hs]
  rw [hst, hf]
  rfl

/-- Witness of C1: `sqlite3://file.db` in a world binding `sqlite3`. -/
theorem connect_dispatches_to_registered_witness :
    "sqlite3".toList ≠ [] ∧
    strings.Contains "sqlite3".toList schemeSep = false ∧
    sample.sqliteWorld.registeredConnectors "sqlite3".toList = some sample.echoConnector ∧
    connect sample.sqliteWorld false
        (NewDSNConnection ("sqlite3".toList ++ schemeSep ++ "file.db".toList))
        ["paging".toList] =
      (Outcome.ret
          (sample.echoConnector ("sqlite3".toList ++ schemeSep ++ "file.db".toList)
            ["paging".toList]).1
          (sample.echoConnector ("sqlite3".toList ++ schemeSep ++ "file.db".toList)
            ["paging".toList]).2,
        { sample.sqliteWorld with
          calls := sample.sqliteWorld.calls ++
            [⟨"sqlite3".toList, "sqlite3".toList ++ schemeSep ++ "file.db".toList,
              ["paging".toList]⟩] }) :=
  ⟨by decide, by decide, rfl,
    connect_dispatches_to_registered sample.sqliteWorld "sqlite3".toList "file.db".toList
      sample.echoConnector ["paging".toList] (by decide) (by decide) rfl⟩

/-- C2: registration is last-write-wins per scheme and cannot fail. After
`RegisterConnector(f, ss...)` followed by `RegisterConnector(g, tt...)` every
scheme of `tt` resolves to `g` (also when it is in `ss`), every scheme of `ss`
that is not in `tt` resolves to `f`, every other scheme keeps the registration
it had, and the driver map is untouched; `RegisterConnector` is a total function
with no error result. The `init` of the sqlite driver so binds each of its three
schemes to its connector, whatever was bound before. -/
theorem RegisterConnector_last_write_wins (w : World) (f g : ConnectorFn) (ss tt : List Str)
    (k : Str) :
    (k ∈ tt →
      (RegisterConnector (RegisterConnector w f ss) g tt).registeredConnectors k = some g) ∧
    (k ∈ ss → k ∉ tt →
      (RegisterConnector (RegisterConnector w f ss) g tt).registeredConnectors k = some f) ∧
    (k ∉ ss → k ∉ tt →
      (RegisterConnector (RegisterConnector w f ss) g tt).registeredConnectors k =
        w.registeredConnectors k) ∧
    (RegisterConnector (RegisterConnector w f ss) g tt).registeredDrivers =
      w.registeredDrivers ∧
    (∀ d : sqlite.Deps, k ∈ [d.baseSchema, d.altSchema, d.debugSchema] →
      (sqlite.init d w).registeredConnectors k = some (sqlite.dalConnector d)) := by
  refine ⟨?_, ?_, ?_, ?_, ?_⟩
  · intro h
    rw [RegisterConnector_lookup, if_pos h]
  · intro h1 h2
    rw [RegisterConnector_lookup, if_neg h2, RegisterConnector_lookup, if_pos h1]
  · intro h1 h2
    rw [RegisterConnector_lookup, if_neg h2, RegisterConnector_lookup, if_neg h1]
  · rw [(RegisterConnector_frame _ g tt).1, (RegisterConnector_frame w f ss).1]
  · intro d h
    unfold sqlite.init
    rw [RegisterConnector_lookup, if_pos h]

/-- C3 (amended): for DSN-type parameters whose DSN is `s://rest`, `s` non-empty
and without `://`, and no connector bound to `s`: outside development mode (or
when the DSN holds no version placeholder) `connect` returns no connection and
the unknown-store-type error made from `s`, leaves the world as it was (no
connector is invoked) and the message of the error is
`unknown store type used: ` followed by the Go-quoted `s` and
` (check your storage configuration)`; it contains `s` itself when `s` consists
of printable characters other than the double quote and the backslash. -/
theorem connect_unknown_store_type (w : World) (dev : Bool) (cp : ConnectionParams)
    (cc : List Capability) (s rest : Str) (wide : Char → Bool)
    (hT : cp.Type_ = dsnType)
    (hD : assertString (mapIndex cp.Params "dsn".toList) = some (s ++ schemeSep ++ rest))
    (hs : s ≠ []) (hsep : strings.Contains s schemeSep = false)
    (hdev : dev = false ∨
      strings.Contains (s ++ schemeSep ++ rest) versionPlaceholder = false)
    (hn : w.registeredConnectors s = none) :
    connect w dev cp cc = (Outcome.ret none (some (errUnknownStoreType s)), w) ∧
    (errUnknownStoreType s).Error wide =
      "unknown store type used: ".toList ++ strconv.Quote wide s ++
        " (check your storage configuration)".toList ∧
    strconv.Quote wide s <:+: (errUnknownStoreType s).Error wide ∧
    ((∀ c ∈ s, strconv.IsPrint wide c = true ∧ c ≠ Char.ofNat 34 ∧ c ≠ Char.ofNat 92) →
      s <:+: (errUnknownStoreType s).Error wide) := by
  have hp := preparedDSN_no_placeholder w dev (s ++ schemeSep ++ rest) hdev
  have hS : strings.SplitN (preparedDSN w dev (s ++ schemeSep ++ rest)).1 schemeSep 2
      = s :: [rest] := by
    rw [hp]
    exact SplitN_scheme s rest hsep
  have hst : storeTypeOf s = s := by simp [storeTypeOf, hs]
  refine ⟨?_, rfl, ?_, ?_⟩
  · rw [connect_dsn_none w dev cp cc _ s [rest] hT hD hS (by rw [hst]; exact hn), hst, hp]
  · rw [Error_errUnknownStoreType]
    exact ⟨"unknown store type used: ".toList, " (check your storage configuration)".toList, rfl⟩
  · intro hplain
    rw [Error_errUnknownStoreType, strconv.Quote_plain wide s hplain]
    refine ⟨"unknown store type used: ".toList ++ [Char.ofNat 34],
      [Char.ofNat 34] ++ " (check your storage configuration)".toList, ?_⟩
    simp only [List.append_assoc]

/-- Witness of C3: the DSN `weirddb://host/db` of the spec, with nothing
registered; the message of the error names `weirddb`. -/
theorem connect_unknown_store_type_witness :
    (NewDSNConnection ("weirddb".toList ++ schemeSep ++ "host/db".toList)).Type_ = dsnType ∧
    assertString (mapIndex
      (NewDSNConnection ("weirddb".toList ++ schemeSep ++ "host/db".toList)).Params
      "dsn".toList) = some ("weirddb".toList ++ schemeSep ++ "host/db".toList) ∧
    "weirddb".toList ≠ [] ∧
    strings.Contains "weirddb".toList schemeSep = false ∧
    sample.emptyWorld.registeredConnectors "weirddb".toList = none ∧
    connect sample.emptyWorld false
        (NewDSNConnection ("weirddb".toList ++ schemeSep ++ "host/db".toList)) [] =
      (Outcome.ret none (some (errUnknownStoreType "weirddb".toList)), sample.emptyWorld) ∧
    (errUnknownStoreType "weirddb".toList).Error (fun _ => false) =
      "unknown store type used: \"weirddb\" (check your storage configuration)".toList ∧
    "weirddb".toList <:+: (errUnknownStoreType "weirddb".toList).Error (fun _ => false) := by
  have h := connect_unknown_store_type sample.emptyWorld false
    (NewDSNConnection ("weirddb".toList ++ schemeSep ++ "host/db".toList)) []
    "weirddb".toList "host/db".toList (fun _ => false) rfl (by decide) (by decide)
    (by decide) (Or.inl rfl) rfl
  exact ⟨rfl, by decide, by decide, by decide, rfl, h.1, by decide, h.2.2.2 (by decide)⟩

set_option maxRecDepth 100000 in
/-- Counterexample to C3 as stated. (1) The scheme `we"ird` is not bound, `connect`
fails with the unknown-store-type error, and for every table of wide printable
characters its message is `unknown store type used: "we\"ird" (check your
storage configuration)`, in which `we"ird` does not occur. (2) In development
mode with `BUILD_VERSION=sqlite3` the DSN `{version}://f.db` has the scheme
prefix `{version}`, which is not bound, and yet `connect` invokes the connector
bound to `sqlite3` and returns its connection. -/
theorem connect_unknown_store_type_counterexample :
    (sample.emptyWorld.registeredConnectors ['w', 'e', Char.ofNat 34, 'i', 'r', 'd'] = none ∧
      (connect sample.emptyWorld false
          (NewDSNConnection
            (['w', 'e', Char.ofNat 34, 'i', 'r', 'd'] ++ schemeSep ++ "host/db".toList))
          []).1 =
        Outcome.ret none
          (some (errUnknownStoreType ['w', 'e', Char.ofNat 34, 'i', 'r', 'd'])) ∧
      ∀ wide : Char → Bool,
        ¬ (['w', 'e', Char.ofNat 34, 'i', 'r', 'd'] <:+:
          (errUnknownStoreType ['w', 'e', Char.ofNat 34, 'i', 'r', 'd']).Error wide)) ∧
    ((sample.sqliteWorld.setenv "BUILD_VERSION".toList "sqlite3".toList).registeredConnectors
        versionPlaceholder = none ∧
      strings.Contains versionPlaceholder schemeSep = false ∧
      (connect (sample.sqliteWorld.setenv "BUILD_VERSION".toList "sqlite3".toList) true
          (NewDSNConnection (versionPlaceholder ++ schemeSep ++ "f.db".toList)) []).1 =
        Outcome.ret (some ⟨14, []⟩) none) := by
  refine ⟨⟨rfl, by decide, ?_⟩, rfl, by decide, by decide⟩
  intro wide
  have hmsg : (errUnknownStoreType ['w', 'e', Char.ofNat 34, 'i', 'r', 'd']).Error wide =
      "unknown store type used: ".toList ++
        [Char.ofNat 34, 'w', 'e', Char.ofNat 92, Char.ofNat 34, 'i', 'r', 'd',
          Char.ofNat 34] ++
        " (check your storage configuration)".toList := by
    rfl
  rw [hmsg]
  decide

/-- C4: parameters whose type tag is not `corteza::dal:connection:dsn` make
`connect` fail: it returns no connection and the only-DSN error and leaves the
world as it was, so that no connector is invoked, whatever `Params`, the mode,
the requested capabilities and the registry are. Every value built by
`NewHTTPConnection` or `NewFederatedNodeCOnnection` is such a value. -/
theorem connect_rejects_other_types (w : World) (dev : Bool) (cc : List Capability) :
    (∀ cp : ConnectionParams, cp.Type_ ≠ dsnType →
      connect w dev cp cc = (Outcome.ret none (some errOnlyDSN), w)) ∧
    (∀ (url : Str) (headers query : List (Str × List Str)),
      connect w dev (NewHTTPConnection url headers query) cc =
        (Outcome.ret none (some errOnlyDSN), w)) ∧
    (∀ url pairToken authToken : Str,
      connect w dev (NewFederatedNodeCOnnection url pairToken authToken) cc =
        (Outcome.ret none (some errOnlyDSN), w)) := by
  refine ⟨fun cp h => connect_of_other_type w dev cp cc h, ?_, ?_⟩
  · intro url headers query
    exact connect_of_other_type w dev _ cc
      (by show "corteza::dal:connection:http".toList ≠ dsnType; decide)
  · intro url pairToken authToken
    exact connect_of_other_type w dev _ cc
      (by show "corteza::dal:connection:federation-node".toList ≠ dsnType; decide)

/-- C5: the store type `connect` looks up is the text of the DSN before its first
`://`, and `mysql` when that text is empty. Outside development mode a DSN
`s://rest` (`s` without `://`) is resolved through the connector bound to `s`,
or to `mysql` for an empty `s`. In either mode a DSN that is empty or starts with
`://` is dispatched to the connector bound to `mysql`, which is invoked once with
the DSN `connect` prepared (the DSN itself outside development mode) and whose
result is returned; when `mysql` is not bound, `connect` returns no connection
and the unknown-store-type error for `mysql`, invoking nothing. -/
theorem connect_empty_scheme_is_mysql (w : World) (dev : Bool) (cp : ConnectionParams)
    (cc : List Capability) (dsn0 : Str)
    (hT : cp.Type_ = dsnType)
    (hD : assertString (mapIndex cp.Params "dsn".toList) = some dsn0) :
    (∀ s rest f, dsn0 = s ++ schemeSep ++ rest → strings.Contains s schemeSep = false →
      dev = false → w.registeredConnectors (if s = [] then "mysql".toList else s) = some f →
      connect w dev cp cc =
        (Outcome.ret (f dsn0 cc).1 (f dsn0 cc).2,
          { w with calls := w.calls ++ [⟨if s = [] then "mysql".toList else s, dsn0, cc⟩] })) ∧
    ((dsn0 = [] ∨ ∃ rest, dsn0 = schemeSep ++ rest) →
      (∀ f, w.registeredConnectors "mysql".toList = some f →
        (connect w dev cp cc).1 =
          Outcome.ret (f (preparedDSN w dev dsn0).1 cc).1 (f (preparedDSN w dev dsn0).1 cc).2 ∧
        (connect w dev cp cc).2.calls =
          w.calls ++ [⟨"mysql".toList, (preparedDSN w dev dsn0).1, cc⟩] ∧
        (dev = false → (preparedDSN w dev dsn0).1 = dsn0)) ∧
      (w.registeredConnectors "mysql".toList = none →
        (connect w dev cp cc).1 =
          Outcome.ret none (some (errUnknownStoreType "mysql".toList)) ∧
        (connect w dev cp cc).2.calls = w.calls ∧
        ∀ wide, (errUnknownStoreType "mysql".toList).Error wide =
          "unknown store type used: \"mysql\" (check your storage configuration)".toList)) := by
  refine ⟨?_, ?_⟩
  · intro s rest f hdsn hsep hdev hf
    subst hdev
    have hS : strings.SplitN (preparedDSN w false dsn0).1 schemeSep 2 = s :: [rest] := by
      rw [preparedDSN_nondev, hdsn]
      exact SplitN_scheme s rest hsep
    rw [connect_dsn_some w false cp cc dsn0 s [rest] f hT hD hS hf]
    rfl
  · intro hempty
    have hS : ∃ rest, strings.SplitN (preparedDSN w dev dsn0).1 schemeSep 2 = [] :: rest :=
      SplitN_prepared_empty_scheme w dev dsn0 hempty
    obtain ⟨rest, hS⟩ := hS
    refine ⟨?_, ?_⟩
    · intro f hf
      rw [connect_dsn_some w dev cp cc dsn0 [] rest f hT hD hS hf]
      refine ⟨rfl, rfl, ?_⟩
      intro hdev
      subst hdev
      rfl
    · intro hn
      rw [connect_dsn_none w dev cp cc dsn0 [] rest hT hD hS hn]
      refine ⟨rfl, (preparedDSN_frame w dev dsn0).2.2.2, ?_⟩
      intro wide
      rfl

/-- Witness of C5: the legacy DSN `://root@tcp(db)/corteza` in a world binding
`mysql`. -/
theorem connect_empty_scheme_is_mysql_witness :
    (NewDSNConnection "://root@tcp(db)/corteza".toList).Type_ = dsnType ∧
    assertString (mapIndex (NewDSNConnection "://root@tcp(db)/corteza".toList).Params
      "dsn".toList) = some "://root@tcp(db)/corteza".toList ∧
    ("://root@tcp(db)/corteza".toList = [] ∨
      ∃ rest, "://root@tcp(db)/corteza".toList = schemeSep ++ rest) ∧
    sample.mysqlWorld.registeredConnectors "mysql".toList = some sample.echoConnector ∧
    (connect sample.mysqlWorld false (NewDSNConnection "://root@tcp(db)/corteza".toList)
        ["paging".toList]).1 =
      Outcome.ret (some ⟨23, ["paging".toList]⟩) none ∧
    (connect sample.mysqlWorld false (NewDSNConnection "://root@tcp(db)/corteza".toList)
        ["paging".toList]).2.calls =
      [⟨"mysql".toList, "://root@tcp(db)/corteza".toList, ["paging".toList]⟩] :=
  ⟨rfl, by decide, Or.inr ⟨"root@tcp(db)/corteza".toList, by decide⟩, rfl,
    ((connect_empty_scheme_is_mysql sample.mysqlWorld false
        (NewDSNConnection "://root@tcp(db)/corteza".toList) ["paging".toList]
        "://root@tcp(db)/corteza".toList rfl (by decide)).2
      (Or.inr ⟨"root@tcp(db)/corteza".toList, by decide⟩)).1 sample.echoConnector rfl
      |>.1,
    by decide⟩

/-- C6 (amended): in development mode, for DSN-type parameters whose DSN is
`pre ++ "{version}" ++ post` with no placeholder inside `pre` (every DSN holding
the placeholder splits so, at its first occurrence), the three warnings
are written and the DSN `connect` goes on with, looks the store type up in and
hands to the selected connector is `pre ++ n ++ post`: the first placeholder is
replaced by the normalized build version `n`, later ones are left as they are.
The normalization replaces every maximal run of dots and dashes of
`BUILD_VERSION` by one underscore and leaves every other character, the other
non-alphanumeric ones included, where it is. -/
theorem connect_development_substitutes_version (w : World) (cp : ConnectionParams)
    (cc : List Capability) (pre post : Str)
    (hT : cp.Type_ = dsnType)
    (hD : assertString (mapIndex cp.Params "dsn".toList) =
      some (pre ++ versionPlaceholder ++ post))
    (hpre : strings.Contains pre versionPlaceholder = false) :
    preparedDSN w true (pre ++ versionPlaceholder ++ post) =
      (pre ++ normalizeVersion (w.Getenv "BUILD_VERSION".toList) ++ post,
        { w with warnings := w.warnings ++ versionWarnings }) ∧
    (∀ first rest f,
      strings.SplitN (pre ++ normalizeVersion (w.Getenv "BUILD_VERSION".toList) ++ post)
        schemeSep 2 = first :: rest →
      w.registeredConnectors (storeTypeOf first) = some f →
      connect w true cp cc =
        (Outcome.ret
            (f (pre ++ normalizeVersion (w.Getenv "BUILD_VERSION".toList) ++ post) cc).1
            (f (pre ++ normalizeVersion (w.Getenv "BUILD_VERSION".toList) ++ post) cc).2,
          { w with
            warnings := w.warnings ++ versionWarnings
            calls := w.calls ++ [⟨storeTypeOf first,
              pre ++ normalizeVersion (w.Getenv "BUILD_VERSION".toList) ++ post, cc⟩] })) ∧
    (∀ dsn : Str, strings.Contains dsn versionPlaceholder = true →
      ∃ pre post, dsn = pre ++ versionPlaceholder ++ post ∧
        strings.Contains pre versionPlaceholder = false) ∧
    (∀ u : Str, (∀ c ∈ u, c ≠ '.' ∧ c ≠ '-') → normalizeVersion u = u) ∧
    (∀ a r b : Str,
      (∀ c, a.getLast? = some c → c ≠ '.' ∧ c ≠ '-') →
      r ≠ [] → (∀ c ∈ r, c = '.' ∨ c = '-') →
      (∀ c, b.head? = some c → c ≠ '.' ∧ c ≠ '-') →
      normalizeVersion (a ++ r ++ b) = normalizeVersion a ++ ['_'] ++ normalizeVersion b) := by
  have hprep : preparedDSN w true (pre ++ versionPlaceholder ++ post) =
      (pre ++ normalizeVersion (w.Getenv "BUILD_VERSION".toList) ++ post,
        { w with warnings := w.warnings ++ versionWarnings }) :=
    developmentDSN_placeholder w pre post hpre
  refine ⟨hprep, ?_, ?_, ?_, ?_⟩
  · intro first rest f hS hf
    have hS2 : strings.SplitN (preparedDSN w true (pre ++ versionPlaceholder ++ post)).1
        schemeSep 2 = first :: rest := by
      rw [hprep]
      exact hS
    rw [connect_dsn_some w true cp cc _ first rest f hT hD hS2 hf, hprep]
  · intro dsn hc
    cases hi : strings.Index dsn versionPlaceholder with
    | none =>
      rw [strings.Contains_eq_false.mpr hi] at hc
      exact Bool.noConfusion hc
    | some m =>
      obtain ⟨p, q, hs, -, hnone⟩ := strings.Index_some_split (by decide) hi
      exact ⟨p, q, hs, strings.Contains_eq_false.mpr hnone⟩
  · intro u hu
    exact regexp.replaceRuns_of_not_class isDotOrDash ['_'] false u
      (fun c hc => by simp [isDotOrDash, (hu c hc).1, (hu c hc).2])
  · intro a r b ha hr hrun hb
    exact regexp.ReplaceAllString_run isDotOrDash ['_'] a r b
      (fun c hc => by simp [isDotOrDash, (ha c hc).1, (ha c hc).2]) hr
      (fun c hc => by simpa [isDotOrDash] using hrun c hc)
      (fun c hc => by simp [isDotOrDash, (hb c hc).1, (hb c hc).2])

/-- Witness of C6: `sqlite3://corteza_{version}.db` with
`BUILD_VERSION=2022.9.1-rc.2` reaches the connector as
`sqlite3://corteza_2022_9_1_rc_2.db`. -/
theorem connect_development_substitutes_version_witness :
    (NewDSNConnection
      ("sqlite3://corteza_".toList ++ versionPlaceholder ++ ".db".toList)).Type_ = dsnType ∧
    assertString (mapIndex (NewDSNConnection
      ("sqlite3://corteza_".toList ++ versionPlaceholder ++ ".db".toList)).Params
      "dsn".toList) = some ("sqlite3://corteza_".toList ++ versionPlaceholder ++ ".db".toList) ∧
    strings.Contains "sqlite3://corteza_".toList versionPlaceholder = false ∧
    preparedDSN sample.sqliteWorld true
        ("sqlite3://corteza_".toList ++ versionPlaceholder ++ ".db".toList) =
      ("sqlite3://corteza_".toList ++
          normalizeVersion (sample.sqliteWorld.Getenv "BUILD_VERSION".toList) ++ ".db".toList,
        { sample.sqliteWorld with
          warnings := sample.sqliteWorld.warnings ++ versionWarnings }) ∧
    normalizeVersion (sample.sqliteWorld.Getenv "BUILD_VERSION".toList) =
      "2022_9_1_rc_2".toList ∧
    (connect sample.sqliteWorld true
        (NewDSNConnection ("sqlite3://corteza_".toList ++ versionPlaceholder ++ ".db".toList))
        []).2.calls =
      [⟨"sqlite3".toList, "sqlite3://corteza_2022_9_1_rc_2.db".toList, []⟩] :=
  ⟨rfl, by decide, by decide,
    (connect_development_substitutes_version sample.sqliteWorld
      (NewDSNConnection ("sqlite3://corteza_".toList ++ versionPlaceholder ++ ".db".toList))
      [] "sqlite3://corteza_".toList ".db".toList rfl (by decide) (by decide)).1,
    by decide, by decide⟩

/-- Counterexample to C6 as stated. With `BUILD_VERSION=1.0+dev` the DSN
`sqlite3://corteza_{version}.db` reaches the connector as
`sqlite3://corteza_1_0+dev.db`: the `+` is kept, whereas replacing every run of
non-alphanumeric characters would give `sqlite3://corteza_1_0_dev.db`. -/
theorem connect_development_substitutes_version_counterexample :
    (connect (sample.sqliteWorld.setenv "BUILD_VERSION".toList "1.0+dev".toList) true
        (NewDSNConnection ("sqlite3://corteza_".toList ++ versionPlaceholder ++ ".db".toList))
        []).2.calls =
      [⟨"sqlite3".toList, "sqlite3://corteza_1_0+dev.db".toList, []⟩] ∧
    "sqlite3://corteza_".toList ++ normalizeAsSpecified "1.0+dev".toList ++ ".db".toList =
      "sqlite3://corteza_1_0_dev.db".toList ∧
    "sqlite3://corteza_1_0+dev.db".toList ≠
      "sqlite3://corteza_".toList ++ normalizeAsSpecified "1.0+dev".toList ++ ".db".toList := by
  refine ⟨by decide, by decide, by decide⟩

/-- C7: `connect` is not total on DSN-type parameters. With the type tag of DSN
parameters and a nil `Params` map, a map without the `dsn` key or a `dsn` entry
that is not a string, the type assertion `cp.Params["dsn"].(string)` panics:
`connect` returns neither a connection nor an error. It panics in exactly these
cases: for DSN-type parameters the call panics if and only if the `dsn` entry is
not a string. -/
theorem connect_panics_without_string_dsn (w : World) (dev : Bool) (cc : List Capability) :
    connect w dev ⟨dsnType, none⟩ cc = (Outcome.panic, w) ∧
    connect w dev ⟨dsnType, some []⟩ cc = (Outcome.panic, w) ∧
    connect w dev ⟨dsnType, some [("dsn".toList, AnyValue.int 42)]⟩ cc = (Outcome.panic, w) ∧
    (∀ cp : ConnectionParams, cp.Type_ = dsnType →
      ((connect w dev cp cc).1 = Outcome.panic ↔
        assertString (mapIndex cp.Params "dsn".toList) = none)) := by
  refine ⟨connect_dsn_panic w dev _ cc rfl rfl, connect_dsn_panic w dev _ cc rfl rfl,
    connect_dsn_panic w dev _ cc rfl (by decide), ?_⟩
  intro cp hT
  constructor
  · intro hp
    cases hD : assertString (mapIndex cp.Params "dsn".toList) with
    | none => rfl
    | some dsn0 =>
      exfalso
      obtain ⟨first, rest, hS⟩ := SplitN_prepared_cons w dev dsn0
      rw [connect_dsn w dev cp cc dsn0 first rest hT hD hS] at hp
      cases hl : w.registeredConnectors (storeTypeOf first) with
      | none => rw [hl] at hp; exact Outcome.noConfusion hp
      | some f => rw [hl] at hp; exact Outcome.noConfusion hp
  · intro hD
    rw [connect_dsn_panic w dev cp cc hT hD]

/-- C8: `connect` never changes the driver registry. For every world, mode,
parameters and capability list the maps `registeredConnectors` and
`registeredDrivers` after the call are the maps before it, and calling `connect`
again with the same input in the world the first call left gives the same
result, a failure included. -/
theorem connect_preserves_registry (w : World) (dev : Bool) (cp : ConnectionParams)
    (cc : List Capability) :
    (connect w dev cp cc).2.registeredConnectors = w.registeredConnectors ∧
    (connect w dev cp cc).2.registeredDrivers = w.registeredDrivers ∧
    (connect (connect w dev cp cc).2 dev cp cc).1 = (connect w dev cp cc).1 := by
  obtain ⟨h1, h2, h3⟩ := connect_frame w dev cp cc
  exact ⟨h1, h2, connect_outcome_congr _ w dev cp cc h1 h3⟩

/-- C9: outside development mode the build version has no influence. Running
`connect` with `BUILD_VERSION` set to any value `v` gives the result of the run
without it and the same world but for that variable: the same connector is
selected and invoked with the same arguments. The DSN it is invoked with is the
DSN of the parameters as it stands, a version placeholder untouched, and no
warning is written. -/
theorem connect_nondev_ignores_build_version (w : World) (cp : ConnectionParams)
    (cc : List Capability) (v : Str) :
    connect (w.setenv "BUILD_VERSION".toList v) false cp cc =
      ((connect w false cp cc).1,
        (connect w false cp cc).2.setenv "BUILD_VERSION".toList v) ∧
    (∀ dsn0, cp.Type_ = dsnType →
      assertString (mapIndex cp.Params "dsn".toList) = some dsn0 →
      (connect w false cp cc).2.calls = w.calls ∨
        ∃ storeType, (connect w false cp cc).2.calls = w.calls ++ [⟨storeType, dsn0, cc⟩]) ∧
    (connect w false cp cc).2.warnings = w.warnings := by
  refine ⟨?_, ?_, ?_⟩
  · have h := connect_nondev_env w
      (fun k => if k = "BUILD_VERSION".toList then v else w.Getenv k) cp cc
    have hg := (connect_frame w false cp cc).2.2
    unfold World.setenv
    rw [h, hg]
  · intro dsn0 hT hD
    obtain ⟨first, rest, hS⟩ := SplitN_prepared_cons w false dsn0
    rw [connect_dsn w false cp cc dsn0 first rest hT hD hS]
    cases w.registeredConnectors (storeTypeOf first) with
    | none => exact Or.inl rfl
    | some f => exact Or.inr ⟨storeTypeOf first, rfl⟩
  · by_cases hT : cp.Type_ = dsnType
    · cases hD : assertString (mapIndex cp.Params "dsn".toList) with
      | none => rw [connect_dsn_panic w false cp cc hT hD]
      | some dsn0 =>
        obtain ⟨first, rest, hS⟩ := SplitN_prepared_cons w false dsn0
        rw [connect_dsn w false cp cc dsn0 first rest hT hD hS]
        cases w.registeredConnectors (storeTypeOf first) <;> rfl
    · rw [connect_of_other_type w false cp cc hT]

end dal

namespace sqlite

open dal

/-- C10 (amended): the sqlite connector does not consult the requested
capabilities. For every DSN it returns the same pair for any two capability
lists; on success the connection is `rdbmsdal.Connection(db, Dialect())` for the
database handle `rdbms.Connect` gave, so its capability set is the one that
constructor gives it; and after the driver's `init`, `connect` outside
development mode on a DSN `s://rest` with `s` one of the three sqlite schemes
(non-empty, without `://`) returns what the connector returns for that DSN,
whatever capabilities were requested. -/
theorem dalConnector_ignores_requested_capabilities (d : Deps) (dsn : Str)
    (cc cc2 : List Capability) :
    dalConnector d dsn cc = dalConnector d dsn cc2 ∧
    (∀ conn, (dalConnector d dsn cc).1 = some conn →
      ∃ db, conn = d.Connection db d.Dialect) ∧
    (∀ (w : World) (s rest : Str), s ∈ [d.baseSchema, d.altSchema, d.debugSchema] →
      s ≠ [] → strings.Contains s schemeSep = false →
      (connect (init d w) false (NewDSNConnection (s ++ schemeSep ++ rest)) cc).1 =
        Outcome.ret (dalConnector d (s ++ schemeSep ++ rest) cc2).1
          (dalConnector d (s ++ schemeSep ++ rest) cc2).2) := by
  refine ⟨rfl, ?_, ?_⟩
  · intro conn h
    unfold dalConnector at h
    rcases hc : d.NewConfig dsn with ⟨cfg, _ | e⟩
    · rcases hk : d.Connect cfg with ⟨db, _ | e⟩
      · simp only [hc, hk] at h
        exact ⟨db, (Option.some.inj h).symm⟩
      · simp [hc, hk] at h
    · simp [hc] at h
  · intro w s rest hmem hs hsep
    have hf : (init d w).registeredConnectors (storeTypeOf s) = some (dalConnector d) := by
      have hst : storeTypeOf s = s := by simp [storeTypeOf, hs]
      rw [hst]
      unfold init
      rw [RegisterConnector_lookup, if_pos hmem]
    have hS : strings.SplitN (preparedDSN (init d w) false (s ++ schemeSep ++ rest)).1
        schemeSep 2 = s :: [rest] := SplitN_scheme s rest hsep
    rw [connect_dsn_some (init d w) false _ cc _ s [rest] (dalConnector d) rfl
      (assertString_NewDSNConnection _) hS hf]
    rfl

/-- Counterexample to C10 as stated: a sqlite driver whose connections support
paging returns, for the DSN `sqlite3://file.db` and an empty list of requested
capabilities, a connection that supports paging, directly and through `connect`;
so the capability set of the connection is not always within the requested
one. -/
theorem dalConnector_capabilities_counterexample :
    (dalConnector sample.sqliteDeps "sqlite3://file.db".toList []).1 =
      some ⟨17, ["paging".toList]⟩ ∧
    (connect (init sample.sqliteDeps sample.emptyWorld) false
        (NewDSNConnection "sqlite3://file.db".toList) []).1 =
      Outcome.ret (some ⟨17, ["paging".toList]⟩) none ∧
    ¬ (["paging".toList] ⊆ ([] : List Capability)) ∧
    ¬ ∀ (d : Deps) (dsn : Str) (cc : List Capability) (conn : Connection),
      (dalConnector d dsn cc).1 = some conn → conn.Capabilities ⊆ cc := by
  refine ⟨by decide, by decide, by decide, ?_⟩
  intro h
  have h2 := h sample.sqliteDeps "sqlite3://file.db".toList [] ⟨17, ["paging".toList]⟩
    (by decide)
  exact absurd h2 (by decide)

end sqlite

/-! ## Properties of `PKValues` -/

theorem lookup_filter_ne {V : Type} (m : List (Str × V)) (k k2 : Str) (h : k2 ≠ k) :
    (m.filter (fun e => e.1 != k)).lookup k2 = m.lookup k2 := by
  induction m with
  | nil => rfl
  | cons e m ih =>
    obtain ⟨a, v⟩ := e
    by_cases ha : a = k
    · subst ha
      have hne : (k2 == a) = false := by simpa using h
      simp [List.filter_cons, List.lookup_cons, hne, ih]
    · by_cases hk : k2 = a
      · subst hk
        simp [List.filter_cons, List.lookup_cons, ha]
      · have hne : (k2 == a) = false := by simpa using hk
        simp [List.filter_cons, List.lookup_cons, ha, hne, ih]

theorem lookup_mapAssign {V : Type} (m : List (Str × V)) (k k2 : Str) (v : V) :
    (mapAssign m k v).lookup k2 = if k2 = k then some v else m.lookup k2 := by
  unfold mapAssign
  by_cases h : k2 = k
  · subst h
    simp
  · have hne : (k2 == k) = false := by simpa using h
    rw [List.lookup_cons, hne, if_neg h]
    exact lookup_filter_ne m k k2 h

theorem lookup_isSome_iff_mem_keys {V : Type} (m : List (Str × V)) (k : Str) :
    (m.lookup k).isSome = true ↔ k ∈ m.map Prod.fst := by
  induction m with
  | nil =>
    constructor
    · intro h; exact Bool.noConfusion h
    · intro h; exact absurd h (List.not_mem_nil _)
  | cons e m ih =>
    obtain ⟨a, v⟩ := e
    by_cases h : k = a
    · subst h
      rw [List.lookup_cons_self]
      exact ⟨fun _ => List.mem_cons_self _ _, fun _ => rfl⟩
    · have hne : (k == a) = false := by simpa using h
      rw [List.lookup_cons, hne]
      constructor
      · intro hs
        exact List.mem_cons_of_mem _ (ih.mp hs)
      · intro hm
        rcases List.mem_cons.mp hm with h1 | h1
        · exact absurd h1 h
        · exact ih.mpr h1

namespace dal

theorem lookup_countLoop (pkv : PKValues) (c : List (Str × Nat)) (k : Str) :
    (pkv.foldl (fun c e => mapAssign c e.1 1) c).lookup k =
      if k ∈ pkv.map Prod.fst then some 1 else c.lookup k := by
  induction pkv generalizing c with
  | nil => rfl
  | cons e pkv ih =>
    rw [List.foldl_cons, ih, lookup_mapAssign]
    rw [List.map_cons]
    by_cases hk : k ∈ pkv.map Prod.fst
    · rw [if_pos hk, if_pos (List.mem_cons_of_mem _ hk)]
    · rw [if_neg hk]
      by_cases he : k = e.1
      · rw [if_pos he, if_pos (by rw [he]; exact List.mem_cons_self _ _)]
      · rw [if_neg he, if_neg (by
          intro hm
          rcases List.mem_cons.mp hm with h1 | h1
          · exact he h1
          · exact hk h1)]

/-- C15: `PKValues` is a consistent `ValueGetter`. For every map `pkv`, key `k`
and index `i`: `CountValues()` has an entry for `k` exactly when `k` is a key of
`pkv`, and then the entry is `1`; `GetValue(k, i)` succeeds (nil error) exactly
when `k` is a key of `pkv`, and then returns `pkv[k]`; for a key that `pkv` does
not have, `GetValue` returns nil and the error `missing` and `CountValues()` has
no entry. Both are functions of `pkv` alone and give no map back in its place. -/
theorem PKValues_consistent (pkv : PKValues) (k : Str) (i : Nat) :
    ((pkv.CountValues.lookup k).isSome = true ↔ k ∈ pkv.map Prod.fst) ∧
    (pkv.CountValues.lookup k = some 1 ↔ k ∈ pkv.map Prod.fst) ∧
    ((pkv.GetValue k i).2 = none ↔ k ∈ pkv.map Prod.fst) ∧
    (∀ v, pkv.lookup k = some v → pkv.GetValue k i = (v, none)) ∧
    (k ∉ pkv.map Prod.fst →
      pkv.GetValue k i = (AnyValue.nil, some (Err.Errorf "missing".toList [])) ∧
      pkv.CountValues.lookup k = none) := by
  have hc : pkv.CountValues.lookup k = if k ∈ pkv.map Prod.fst then some 1 else none := by
    unfold PKValues.CountValues
    rw [lookup_countLoop]
    rfl
  have hkey := lookup_isSome_iff_mem_keys pkv k
  refine ⟨?_, ?_, ?_, ?_, ?_⟩
  · rw [hc]
    by_cases h : k ∈ pkv.map Prod.fst <;> simp [h]
  · rw [hc]
    by_cases h : k ∈ pkv.map Prod.fst <;> simp [h]
  · rw [← hkey]
    unfold PKValues.GetValue
    cases pkv.lookup k <;> simp
  · intro v hv
    unfold PKValues.GetValue
    rw [hv]
  · intro h
    have hnone : pkv.lookup k = none := by
      cases hl : pkv.lookup k with
      | none => rfl
      | some v => exact absurd (hkey.mp (by rw [hl]; rfl)) h
    refine ⟨?_, ?_⟩
    · unfold PKValues.GetValue
      rw [hnone]
    · rw [hc, if_neg h]

/-- C18: the tag of `NewFederatedNodeCOnnection` is
`corteza::dal:connection:federation-node`, which is not the reserved
`corteza::dal:connection:federated-node` that the return statement of
`NewFederatedNodeDriverConnectionConfig` names. The other two pairs agree:
`NewHTTPConnection` has the tag `corteza::dal:connection:http` of the return
statement of `NewHTTPDriverConnectionConfig`, and `NewDSNConnection` the tag of
`NewDSNDriverConnectionConfig`. The HTTP and federated-node config constructors
panic before they return. -/
theorem connection_type_tags (url pairToken authToken dsn : Str)
    (headers query : List (Str × List Str)) :
    (NewFederatedNodeCOnnection url pairToken authToken).Type_ =
      "corteza::dal:connection:federation-node".toList ∧
    (NewFederatedNodeCOnnection url pairToken authToken).Type_ ≠
      "corteza::dal:connection:federated-node".toList ∧
    (NewFederatedNodeCOnnection url pairToken authToken).Type_ ≠
      federatedNodeDriverConnectionConfigLiteral.Type_ ∧
    (NewHTTPConnection url headers query).Type_ = "corteza::dal:connection:http".toList ∧
    (NewHTTPConnection url headers query).Type_ = httpDriverConnectionConfigLiteral.Type_ ∧
    (NewDSNConnection dsn).Type_ = NewDSNDriverConnectionConfig.Type_ ∧
    NewHTTPDriverConnectionConfig =
      OrPanic.panic "not implemented NewHTTPDriverConnectionConfig".toList ∧
    NewFederatedNodeDriverConnectionConfig =
      OrPanic.panic "not implemented NewFederatedNodeDriverConnectionConfig".toList := by
  refine ⟨rfl, ?_, ?_, rfl, rfl, rfl, rfl, rfl⟩
  · show "corteza::dal:connection:federation-node".toList ≠
      "corteza::dal:connection:federated-node".toList
    decide
  · show "corteza::dal:connection:federation-node".toList ≠
      "corteza::dal:connection:federated-node".toList
    decide

end dal

/-! ## Properties of the workflow step constructors -/

namespace automation

/-- C16: the step constructors accept exactly their own kind. `FunctionStep`
succeeds (a step and a nil error) if and only if `def` is a definition of kind
`function`, `IteratorStep` if and only if it is one of kind `iterator`; on
success the step holds the given definition, arguments and results (and the next
and exit steps); for a definition of another kind each returns no step and its
`expecting ... kind` error; and no definition is accepted by both. -/
theorem step_constructors_accept_own_kind {E S : Type} (def_ : Option Function)
    (arguments results : E) (next exit : S) :
    ((∃ st, FunctionStep def_ arguments results = GoResult.ret (some st) none) ↔
      ∃ f, def_ = some f ∧ f.Kind = "function".toList) ∧
    ((∃ st, IteratorStep def_ arguments results next exit = GoResult.ret (some st) none) ↔
      ∃ f, def_ = some f ∧ f.Kind = "iterator".toList) ∧
    (∀ f, def_ = some f → f.Kind = "function".toList →
      FunctionStep def_ arguments results =
        GoResult.ret (some { def_ := some f, arguments := arguments, results := results })
          none) ∧
    (∀ f, def_ = some f → f.Kind = "iterator".toList →
      IteratorStep def_ arguments results next exit =
        GoResult.ret
          (some { def_ := some f, arguments := arguments, results := results,
                  next := next, exit := exit })
          none) ∧
    (∀ f, def_ = some f → f.Kind ≠ "function".toList →
      FunctionStep def_ arguments results =
        GoResult.ret none (some (dal.Err.Errorf "expecting function kind".toList []))) ∧
    (∀ f, def_ = some f → f.Kind ≠ "iterator".toList →
      IteratorStep def_ arguments results next exit =
        GoResult.ret none (some (dal.Err.Errorf "expecting iterator kind".toList []))) ∧
    ¬ ((∃ st, FunctionStep def_ arguments results = GoResult.ret (some st) none) ∧
      ∃ st, IteratorStep def_ arguments results next exit = GoResult.ret (some st) none) := by
  have hF : (∃ st, FunctionStep def_ arguments results = GoResult.ret (some st) none) ↔
      ∃ f, def_ = some f ∧ f.Kind = "function".toList := by
    cases def_ with
    | none =>
      constructor
      · rintro ⟨st, hst⟩
        exact GoResult.noConfusion hst
      · rintro ⟨f, hf, -⟩
        exact Option.noConfusion hf
    | some f =>
      by_cases hk : f.Kind = FunctionKindFunction
      · constructor
        · intro _
          exact ⟨f, rfl, hk⟩
        · intro _
          exact ⟨{ def_ := some f, arguments := arguments, results := results },
            by simp only [FunctionStep, hk, ne_eq, not_true_eq_false, if_false]⟩
      · constructor
        · rintro ⟨st, hst⟩
          simp only [FunctionStep, ne_eq, hk, not_false_eq_true, if_true] at hst
          exact Option.noConfusion (GoResult.ret.inj hst).1
        · rintro ⟨g, hg, hkg⟩
          rw [← Option.some.inj hg] at hkg
          exact absurd hkg hk
  have hI : (∃ st, IteratorStep def_ arguments results next exit
      = GoResult.ret (some st) none) ↔ ∃ f, def_ = some f ∧ f.Kind = "iterator".toList := by
    cases def_ with
    | none =>
      constructor
      · rintro ⟨st, hst⟩
        exact GoResult.noConfusion hst
      · rintro ⟨f, hf, -⟩
        exact Option.noConfusion hf
    | some f =>
      by_cases hk : f.Kind = FunctionKindIterator
      · constructor
        · intro _
          exact ⟨f, rfl, hk⟩
        · intro _
          exact ⟨{ def_ := some f, arguments := arguments, results := results,
                   next := next, exit := exit },
            by simp only [IteratorStep, hk, ne_eq, not_true_eq_false, if_false]⟩
      · constructor
        · rintro ⟨st, hst⟩
          simp only [IteratorStep, ne_eq, hk, not_false_eq_true, if_true] at hst
          exact Option.noConfusion (GoResult.ret.inj hst).1
        · rintro ⟨g, hg, hkg⟩
          rw [← Option.some.inj hg] at hkg
          exact absurd hkg hk
  refine ⟨hF, hI, ?_, ?_, ?_, ?_, ?_⟩
  · intro f hd hk
    subst hd
    have hk2 : f.Kind = FunctionKindFunction := hk
    simp only [FunctionStep, hk2, ne_eq, not_true_eq_false, if_false]
  · intro f hd hk
    subst hd
    have hk2 : f.Kind = FunctionKindIterator := hk
    simp only [IteratorStep, hk2, ne_eq, not_true_eq_false, if_false]
  · intro f hd hk
    subst hd
    have hk2 : ¬ f.Kind = FunctionKindFunction := hk
    simp only [FunctionStep, ne_eq, hk2, not_false_eq_true, if_true]
  · intro f hd hk
    subst hd
    have hk2 : ¬ f.Kind = FunctionKindIterator := hk
    simp only [IteratorStep, ne_eq, hk2, not_false_eq_true, if_true]
  · rintro ⟨h1, h2⟩
    obtain ⟨f, hf, hkf⟩ := hF.mp h1
    obtain ⟨g, hg, hkg⟩ := hI.mp h2
    rw [hf] at hg
    have hfg : f = g := Option.some.inj hg
    subst hfg
    rw [hkf] at hkg
    exact absurd hkg (by decide)

end automation

/-! ## Properties of `isStale` and `unwrapGeneric` -/

namespace service

/-- C17: `isStale` does not implement its documented rule before the first
update. With `updatedAt` nil it returns `new.Equal(createdAt)`: true exactly when
the new timestamp matches `createdAt`, the opposite of the documented rule; so a
record that was never updated and is sent back with its own `createdAt` is
reported stale. With `updatedAt` set, and for a nil new timestamp, it agrees with
the documented rule. -/
theorem isStale_before_first_update (n c u : Time) :
    isStale (some n) none c = n.Equal c ∧
    isStaleAsDocumented (some n) none c = !n.Equal c ∧
    isStale (some n) none c ≠ isStaleAsDocumented (some n) none c ∧
    isStale (some c) none c = true ∧
    isStale (some n) (some u) c = isStaleAsDocumented (some n) (some u) c ∧
    isStale none (some u) c = false ∧ isStale none none c = false := by
  refine ⟨rfl, rfl, ?_, ?_, rfl, rfl, rfl⟩
  · show n.Equal c ≠ !n.Equal c
    cases n.Equal c <;> decide
  · show c.Equal c = true
    simp [Time.Equal]

theorem unwrapGeneric_of_chain (G : ErrorGraph) (err : Option Nat) (l : List Nat)
    (h : Chain G err l) (fuel : Nat) (hfuel : l.length < fuel) :
    unwrapGeneric G fuel err = some (l.find? (fun e => !isGeneric G (some e))) := by
  induction h generalizing fuel with
  | nil =>
    cases fuel with
    | zero => exact absurd hfuel (by simp)
    | succ fuel => rfl
  | cons e l _ ih =>
    cases fuel with
    | zero => exact absurd hfuel (by simp)
    | succ fuel =>
      have hlt : l.length < fuel := by simpa using hfuel
      unfold unwrapGeneric
      by_cases hg : isGeneric G (some e) = true
      · rw [if_pos hg, List.find?_cons]
        simp only [hg, Bool.not_true]
        exact ih fuel hlt
      · rw [if_neg hg, List.find?_cons]
        have hg2 : isGeneric G (some e) = false := Bool.eq_false_iff.mpr hg
        simp [hg2]

theorem unwrapGeneric_not_generic (G : ErrorGraph) (fuel : Nat) (err r : Option Nat)
    (h : unwrapGeneric G fuel err = some r) : isGeneric G r = false := by
  induction fuel generalizing err with
  | zero => simp [unwrapGeneric] at h
  | succ fuel ih =>
    unfold unwrapGeneric at h
    by_cases hg : isGeneric G err = true
    · rw [if_pos hg] at h
      exact ih _ h
    · rw [if_neg hg] at h
      have hr : err = r := Option.some.inj h
      rw [← hr]
      exact Bool.eq_false_iff.mpr hg

/-- C19: on a finite error chain `unwrapGeneric` terminates: as soon as the loop
may run more rounds than the chain is long, it returns, and what it returns is
the outermost error of the chain that is not generic, or nil when every error of
the chain is generic. Whatever it returns is not generic, and an error that is
not generic (nil included) is returned as it is, in the first round. -/
theorem unwrapGeneric_finite_chain (G : ErrorGraph) (err : Option Nat) (l : List Nat)
    (h : Chain G err l) :
    (∀ fuel, l.length < fuel →
      unwrapGeneric G fuel err = some (l.find? (fun e => !isGeneric G (some e)))) ∧
    (∀ fuel r, unwrapGeneric G fuel err = some r → isGeneric G r = false) ∧
    (isGeneric G err = false → ∀ fuel, unwrapGeneric G (fuel + 1) err = some err) := by
  refine ⟨fun fuel hf => unwrapGeneric_of_chain G err l h fuel hf,
    fun fuel r hr => unwrapGeneric_not_generic G fuel err r hr, ?_⟩
  intro hg fuel
  unfold unwrapGeneric
  rw [if_neg (by simp [hg])]

/-- Witness of C19: error 1 is generic and wraps error 2, which is generic and
wraps error 3, which is not generic and wraps nothing; unwrapping error 1 gives
error 3. -/
theorem unwrapGeneric_finite_chain_witness :
    Chain sample.errorGraph (some 1) [1, 2, 3] ∧
    unwrapGeneric sample.errorGraph 4 (some 1) = some (some 3) ∧
    isGeneric sample.errorGraph (some 3) = false :=
  have hc : Chain sample.errorGraph (some 1) [1, 2, 3] :=
    Chain.cons 1 [2, 3] (Chain.cons 2 [3] (Chain.cons 3 [] Chain.nil))
  ⟨hc,
    (unwrapGeneric_finite_chain sample.errorGraph (some 1) [1, 2, 3] hc).1 4 (by decide),
    by decide⟩

end service

/-! ## Properties of the connection service -/

namespace service

open types

/-- C11: `FindByID(0)` returns the configured primary connection and a nil error,
whatever the store holds and whatever the access controller would answer: the
only call it makes is the one recording the lookup action, so the store is not
read and no read permission is checked, and its result is the same for all
collaborators and states; `FindPrimary` gives the same. The record returned is a
value of its own, the copy `aux` of `svc.primaryConnection`: the service is left
as it is, and whatever record the caller makes of the one it got, a later
`FindByID(0)` still returns the configured primary connection. -/
theorem FindByID_zero_is_primary {S M : Type} (c c2 : Collaborators S M)
    (svc : dalConnection) (st st2 : Sys S M) (change : DalConnection → DalConnection) :
    FindByID c svc st 0 =
      ((some svc.primaryConnection, none),
        { st with
          events := st.events ++ [Event.recordAction Action.DalConnectionActionLookup none] }) ∧
    (FindByID c svc st 0).2.store = st.store ∧
    (FindByID c svc st 0).2.manager = st.manager ∧
    (FindByID c svc st 0).1 = (FindByID c2 svc st2 0).1 ∧
    FindPrimary svc st = FindByID c svc st 0 ∧
    ((FindByID c svc st 0).1.1.map change = some (change svc.primaryConnection) ∧
      (FindByID c svc (FindByID c svc st 0).2 0).1 = (some svc.primaryConnection, none)) := by
  refine ⟨rfl, rfl, rfl, rfl, rfl, rfl, rfl⟩

/-- C12: the reserved identifier 0 can be neither deleted nor restored.
`DeleteByID(0)` and `UndeleteByID(0)` both return the invalid-ID error; the only
call either makes is the one recording the action with that error, so the store
is neither read nor written and neither `RemoveConnection` nor `AddConnection`
is called on the manager; store and manager are left as they were. -/
theorem delete_undelete_zero_invalid {S M : Type} (c : Collaborators S M) (st : Sys S M) :
    DeleteByID c st 0 =
      (some Error.DalConnectionErrInvalidID,
        { st with
          events := st.events ++
            [Event.recordAction Action.DalConnectionActionDelete
              (some Error.DalConnectionErrInvalidID)] }) ∧
    UndeleteByID c st 0 =
      (some Error.DalConnectionErrInvalidID,
        { st with
          events := st.events ++
            [Event.recordAction Action.DalConnectionActionDelete
              (some Error.DalConnectionErrInvalidID)] }) ∧
    (DeleteByID c st 0).2.store = st.store ∧ (DeleteByID c st 0).2.manager = st.manager ∧
    (UndeleteByID c st 0).2.store = st.store ∧ (UndeleteByID c st 0).2.manager = st.manager := by
  refine ⟨rfl, rfl, rfl, rfl, rfl, rfl⟩

/-- C13: every successful record mutation is forwarded to the connection manager
exactly once, with the ID of the record, its connection params, its defaults and
its active capabilities, and the error of the manager is what the operation
reports. When the access check passes and the store write succeeds, `Create`
calls `AddConnection` for the record it stored (the given one with the fresh
ID), `Update` calls `UpdateConnection` for the record it stored (ID and
connection params of the given one), `DeleteByID` calls `RemoveConnection` with
the ID of the record it looked up (the requested ID, for a store that answers a
lookup with the record of that ID) and `UndeleteByID` calls `AddConnection` for
the record it restored. The calls made are the ones listed, in that order. -/
theorem mutations_forwarded_to_manager {S M : Type} (c : Collaborators S M) (st : Sys S M) :
    (∀ (new : DalConnection) (s1 : S),
      c.CanCreateDalConnection = true →
      c.CreateDalConnection st.store (createdRecord c new) = (s1, none) →
      Create c st new =
        ((some (createdRecord c new),
            (c.AddConnection st.manager c.nextID new.Config.Connection
              (c.ConnectionDefaults (createdRecord c new))
              (c.ActiveCapabilities (createdRecord c new))).2),
          { store := s1
            manager := (c.AddConnection st.manager c.nextID new.Config.Connection
              (c.ConnectionDefaults (createdRecord c new))
              (c.ActiveCapabilities (createdRecord c new))).1
            events := st.events ++
              [Event.CanCreateDalConnection,
                Event.CreateDalConnection (createdRecord c new),
                Event.AddConnection c.nextID new.Config.Connection
                  (c.ConnectionDefaults (createdRecord c new))
                  (c.ActiveCapabilities (createdRecord c new)),
                Event.recordAction Action.DalConnectionActionCreate
                  (c.AddConnection st.manager c.nextID new.Config.Connection
                    (c.ConnectionDefaults (createdRecord c new))
                    (c.ActiveCapabilities (createdRecord c new))).2] })) ∧
    (∀ (upd qq : DalConnection) (s1 : S),
      c.LookupDalConnectionByID st.store upd.ID = Except.ok qq →
      c.CanUpdateDalConnection qq = true →
      c.UpdateDalConnection st.store (updatedRecord c upd qq) = (s1, none) →
      Update c st upd =
        ((some (updatedRecord c upd qq),
            (c.UpdateConnection st.manager upd.ID upd.Config.Connection
              (c.ConnectionDefaults (updatedRecord c upd qq))
              (c.ActiveCapabilities (updatedRecord c upd qq))).2),
          { store := s1
            manager := (c.UpdateConnection st.manager upd.ID upd.Config.Connection
              (c.ConnectionDefaults (updatedRecord c upd qq))
              (c.ActiveCapabilities (updatedRecord c upd qq))).1
            events := st.events ++
              [Event.LookupDalConnectionByID upd.ID,
                Event.CanUpdateDalConnection qq,
                Event.UpdateDalConnection (updatedRecord c upd qq),
                Event.UpdateConnection upd.ID upd.Config.Connection
                  (c.ConnectionDefaults (updatedRecord c upd qq))
                  (c.ActiveCapabilities (updatedRecord c upd qq)),
                Event.recordAction Action.DalConnectionActionUpdate
                  (c.UpdateConnection st.manager upd.ID upd.Config.Connection
                    (c.ConnectionDefaults (updatedRecord c upd qq))
                    (c.ActiveCapabilities (updatedRecord c upd qq))).2] })) ∧
    (∀ (ID : Nat) (q : DalConnection) (s1 : S),
      ID ≠ 0 →
      c.LookupDalConnectionByID st.store ID = Except.ok q → q.ID = ID →
      c.CanDeleteDalConnection q = true →
      c.UpdateDalConnection st.store (deletedRecord c q) = (s1, none) →
      DeleteByID c st ID =
        ((c.RemoveConnection st.manager ID).2,
          { store := s1
            manager := (c.RemoveConnection st.manager ID).1
            events := st.events ++
              [Event.LookupDalConnectionByID ID,
                Event.CanDeleteDalConnection q,
                Event.UpdateDalConnection (deletedRecord c q),
                Event.RemoveConnection ID,
                Event.recordAction Action.DalConnectionActionDelete
                  (c.RemoveConnection st.manager ID).2] })) ∧
    (∀ (ID : Nat) (q : DalConnection) (s1 : S),
      ID ≠ 0 →
      c.LookupDalConnectionByID st.store ID = Except.ok q → q.ID = ID →
      c.CanDeleteDalConnection q = true →
      c.UpdateDalConnection st.store (undeletedRecord c q) = (s1, none) →
      UndeleteByID c st ID =
        ((c.AddConnection st.manager ID q.Config.Connection
            (c.ConnectionDefaults (undeletedRecord c q))
            (c.ActiveCapabilities (undeletedRecord c q))).2,
          { store := s1
            manager := (c.AddConnection st.manager ID q.Config.Connection
              (c.ConnectionDefaults (undeletedRecord c q))
              (c.ActiveCapabilities (undeletedRecord c q))).1
            events := st.events ++
              [Event.LookupDalConnectionByID ID,
                Event.CanDeleteDalConnection q,
                Event.UpdateDalConnection (undeletedRecord c q),
                Event.AddConnection ID q.Config.Connection
                  (c.ConnectionDefaults (undeletedRecord c q))
                  (c.ActiveCapabilities (undeletedRecord c q)),
                Event.recordAction Action.DalConnectionActionDelete
                  (c.AddConnection st.manager ID q.Config.Connection
                    (c.ConnectionDefaults (undeletedRecord c q))
                    (c.ActiveCapabilities (undeletedRecord c q))).2] })) := by
  refine ⟨?_, ?_, ?_, ?_⟩
  · intro new s1 hac hst
    have h1 : (createdRecord c new).ID = c.nextID := rfl
    have h2 : (createdRecord c new).Config = new.Config := rfl
    simp only [Create, hac, hst, recordAction, Sys.emit, h1, h2, Bool.not_true,
      Bool.false_eq_true, if_false, List.append_assoc, List.cons_append, List.nil_append]
  · intro upd qq s1 hl hac hst
    have h1 : (updatedRecord c upd qq).ID = upd.ID := rfl
    have h2 : (updatedRecord c upd qq).Config = upd.Config := rfl
    simp only [Update, hl, hac, hst, recordAction, Sys.emit, h1, h2, Bool.not_true,
      Bool.false_eq_true, if_false, List.append_assoc, List.cons_append, List.nil_append]
  · intro ID q s1 hid hl hq hac hst
    have h1 : (deletedRecord c q).ID = ID := hq
    simp only [DeleteByID, hid, hl, hac, hst, recordAction, Sys.emit, h1, Bool.not_true,
      Bool.false_eq_true, if_false, List.append_assoc, List.cons_append, List.nil_append]
  · intro ID q s1 hid hl hq hac hst
    have h1 : (undeletedRecord c q).ID = ID := hq
    have h2 : (undeletedRecord c q).Config = q.Config := rfl
    simp only [UndeleteByID, hid, hl, hac, hst, recordAction, Sys.emit, h1, h2, Bool.not_true,
      Bool.false_eq_true, if_false, List.append_assoc, List.cons_append, List.nil_append]

/-- C14: a mutation the access controller denies is atomic. When the check of the
verb answers false, `Create`, `Update`, `DeleteByID` and `UndeleteByID` return
the not-allowed error of the operation (create, update, delete, undelete) and no
record; the calls made are the lookup (for the last three), the check and the
recording of the action: no store create or update and no `AddConnection`,
`UpdateConnection` or `RemoveConnection`; store and manager are left as they
were. -/
theorem denied_mutations_are_atomic {S M : Type} (c : Collaborators S M) (st : Sys S M) :
    (∀ new : DalConnection, c.CanCreateDalConnection = false →
      Create c st new =
        ((none,
            some (Error.DalConnectionErrNotAllowedToCreate { noProps with new := some new })),
          { st with
            events := st.events ++
              [Event.CanCreateDalConnection,
                Event.recordAction Action.DalConnectionActionCreate
                  (some (Error.DalConnectionErrNotAllowedToCreate
                    { noProps with new := some new }))] })) ∧
    (∀ upd qq : DalConnection,
      c.LookupDalConnectionByID st.store upd.ID = Except.ok qq →
      c.CanUpdateDalConnection qq = false →
      Update c st upd =
        ((none,
            some (Error.DalConnectionErrNotAllowedToUpdate { noProps with update := some upd })),
          { st with
            events := st.events ++
              [Event.LookupDalConnectionByID upd.ID,
                Event.CanUpdateDalConnection qq,
                Event.recordAction Action.DalConnectionActionUpdate
                  (some (Error.DalConnectionErrNotAllowedToUpdate
                    { noProps with update := some upd }))] })) ∧
    (∀ (ID : Nat) (q : DalConnection), ID ≠ 0 →
      c.LookupDalConnectionByID st.store ID = Except.ok q →
      c.CanDeleteDalConnection q = false →
      DeleteByID c st ID =
        (some (Error.DalConnectionErrNotAllowedToDelete noProps),
          { st with
            events := st.events ++
              [Event.LookupDalConnectionByID ID,
                Event.CanDeleteDalConnection q,
                Event.recordAction Action.DalConnectionActionDelete
                  (some (Error.DalConnectionErrNotAllowedToDelete noProps))] })) ∧
    (∀ (ID : Nat) (q : DalConnection), ID ≠ 0 →
      c.LookupDalConnectionByID st.store ID = Except.ok q →
      c.CanDeleteDalConnection q = false →
      UndeleteByID c st ID =
        (some (Error.DalConnectionErrNotAllowedToUndelete noProps),
          { st with
            events := st.events ++
              [Event.LookupDalConnectionByID ID,
                Event.CanDeleteDalConnection q,
                Event.recordAction Action.DalConnectionActionDelete
                  (some (Error.DalConnectionErrNotAllowedToUndelete noProps))] })) := by
  refine ⟨?_, ?_, ?_, ?_⟩
  · intro new hac
    simp only [Create, hac, recordAction, Sys.emit, Bool.not_false, if_true,
      List.append_assoc, List.cons_append, List.nil_append]
  · intro upd qq hl hac
    simp only [Update, hl, hac, recordAction, Sys.emit, Bool.not_false, if_true,
      List.append_assoc, List.cons_append, List.nil_append]
  · intro ID q hid hl hac
    simp only [DeleteByID, hid, hl, hac, recordAction, Sys.emit, Bool.not_false, if_true,
      if_false, List.append_assoc, List.cons_append, List.nil_append]
  · intro ID q hid hl hac
    simp only [UndeleteByID, hid, hl, hac, recordAction, Sys.emit, Bool.not_false, if_true,
      if_false, List.append_assoc, List.cons_append, List.nil_append]

/-- Witness of C13: with every check passing, creating a record in a store that
holds the record 5 makes one `AddConnection` call, for the fresh ID 42, and
deleting the record 5 makes one `RemoveConnection` call, for the ID 5. -/
theorem mutations_forwarded_to_manager_witness :
    (Create (sample.collaborators true) sample.sys (sample.record 0)).2.events =
      [Event.CanCreateDalConnection,
        Event.CreateDalConnection (createdRecord (sample.collaborators true) (sample.record 0)),
        Event.AddConnection 42 (dal.NewDSNConnection "sqlite3://file.db".toList) 0
          ["paging".toList],
        Event.recordAction Action.DalConnectionActionCreate none] ∧
    (Create (sample.collaborators true) sample.sys (sample.record 0)).2.manager = [5, 42] ∧
    (DeleteByID (sample.collaborators true) sample.sys 5).2.events =
      [Event.LookupDalConnectionByID 5,
        Event.CanDeleteDalConnection (sample.record 5),
        Event.UpdateDalConnection (deletedRecord (sample.collaborators true) (sample.record 5)),
        Event.RemoveConnection 5,
        Event.recordAction Action.DalConnectionActionDelete none] ∧
    (DeleteByID (sample.collaborators true) sample.sys 5).2.manager = [] := by
  have h := mutations_forwarded_to_manager (sample.collaborators true) sample.sys
  have h1 := h.1 (sample.record 0)
    (sample.sys.store ++ [createdRecord (sample.collaborators true) (sample.record 0)])
    rfl rfl
  have h3 := h.2.2.1 5 (sample.record 5)
    [deletedRecord (sample.collaborators true) (sample.record 5)]
    (by decide) rfl rfl rfl rfl
  rw [h1, h3]
  exact ⟨rfl, rfl, rfl, rfl⟩

/-- Witness of C14: with every check denied, `Create` and `DeleteByID(5)` return
their not-allowed errors and leave the store and the manager as they were. -/
theorem denied_mutations_are_atomic_witness :
    Create (sample.collaborators false) sample.sys (sample.record 0) =
      ((none,
          some (Error.DalConnectionErrNotAllowedToCreate
            { noProps with new := some (sample.record 0) })),
        { sample.sys with
          events :=
            [Event.CanCreateDalConnection,
              Event.recordAction Action.DalConnectionActionCreate
                (some (Error.DalConnectionErrNotAllowedToCreate
                  { noProps with new := some (sample.record 0) }))] }) ∧
    DeleteByID (sample.collaborators false) sample.sys 5 =
      (some (Error.DalConnectionErrNotAllowedToDelete noProps),
        { sample.sys with
          events :=
            [Event.LookupDalConnectionByID 5,
              Event.CanDeleteDalConnection (sample.record 5),
              Event.recordAction Action.DalConnectionActionDelete
                (some (Error.DalConnectionErrNotAllowedToDelete noProps))] }) := by
  have h := denied_mutations_are_atomic (sample.collaborators false) sample.sys
  exact ⟨h.1 (sample.record 0) rfl, h.2.2.1 5 (sample.record 5) (by decide) rfl rfl⟩

end service

/-! ## Properties of the connection filter -/

namespace rest

open types

theorem inIDSet_loop (set : List Nat) (target : Nat) (out : Bool) :
    set.foldl (fun out id => out || id == target) out = (out || decide (target ∈ set)) := by
  induction set generalizing out with
  | nil => simp
  | cons id set ih =>
    rw [List.foldl_cons, ih]
    by_cases h : id = target
    · subst h
      simp
    · have h2 : ¬ target = id := fun e => h e.symm
      have h3 : (id == target) = false := by simpa using h
      simp [h2, h3]

theorem inIDSet_iff (set : List Nat) (target : Nat) :
    inIDSet set target = true ↔ target ∈ set := by
  unfold inIDSet
  rw [inIDSet_loop]
  simp

theorem ite_and_iff (P : Prop) [Decidable P] (a b : Bool) :
    (if P then a && b else a) = true ↔ a = true ∧ (P → b = true) := by
  by_cases h : P <;> simp [h]

theorem ite_true_iff (P : Prop) [Decidable P] (b : Bool) :
    (if P then true && b else true) = true ↔ (P → b = true) := by
  by_cases h : P <;> simp [h]

theorem includes_iff (fs : FilterStates) (f : DalConnectionFilter) (conn : DalConnection) :
    includes fs f conn = true ↔ satisfies fs f conn := by
  unfold includes satisfies
  have hlen : (f.ConnectionID.length > 0) ↔ f.ConnectionID ≠ [] := by
    cases f.ConnectionID <;> simp
  have hin := inIDSet_iff f.ConnectionID conn.ID
  have hnone : conn.DeletedAt.isNone = true ↔ conn.DeletedAt = none := by
    cases conn.DeletedAt <;> simp
  have hsome : conn.DeletedAt.isSome = true ↔ conn.DeletedAt ≠ none := by
    cases conn.DeletedAt <;> simp
  have hh : (f.Handle == conn.Handle) = true ↔ conn.Handle = f.Handle := by
    rw [beq_iff_eq]; exact eq_comm
  have ht : (f.Type_ == conn.Type_) = true ↔ conn.Type_ = f.Type_ := by
    rw [beq_iff_eq]; exact eq_comm
  cases hchk : f.Check with
  | none =>
    simp only [ite_and_iff, ite_true_iff, hlen, hin, hnone, hsome, hh, ht, and_assoc,
      true_and]
    constructor
    · rintro ⟨a1, a2, a3, a4, a5⟩
      exact ⟨a1, a2, a3, a4, a5, fun check hc => Option.noConfusion hc⟩
    · rintro ⟨a1, a2, a3, a4, a5, -⟩
      exact ⟨a1, a2, a3, a4, a5⟩
  | some check =>
    simp only [Bool.and_eq_true, ite_and_iff, ite_true_iff, hlen, hin, hnone, hsome, hh, ht,
      and_assoc, true_and]
    constructor
    · rintro ⟨a1, a2, a3, a4, a5, a6⟩
      refine ⟨a1, a2, a3, a4, a5, ?_⟩
      intro check2 hc
      rw [← Option.some.inj hc]
      exact a6
    · rintro ⟨a1, a2, a3, a4, a5, a6⟩
      exact ⟨a1, a2, a3, a4, a5, a6 check rfl⟩

theorem filterLoop_eq (p : DalConnection → Bool) (base out : List DalConnection) :
    base.foldl (fun out conn => if p conn then out ++ [conn] else out) out =
      out ++ base.filter p := by
  induction base generalizing out with
  | nil => simp
  | cons conn base ih =>
    rw [List.foldl_cons, ih]
    by_cases h : p conn = true
    · simp [h, List.filter_cons]
    · simp [h, List.filter_cons]

theorem filterConnections_eq_filter (fs : FilterStates) (base : List DalConnection)
    (f : DalConnectionFilter) :
    filterConnections fs base f = base.filter (includes fs f) := by
  unfold filterConnections
  rw [filterLoop_eq]
  rfl

/-- C20: `filterConnections` returns exactly the connections of the given set that
satisfy every active criterion of the filter, in their original order: the
result is the set filtered by a predicate that holds of a connection if and only
if its ID is in `f.ConnectionID` when that list is non-empty, its handle equals
`f.Handle` when that is non-empty, its type equals `f.Type` when that is
non-empty, its `DeletedAt` is nil under `StateExcluded` and non-nil under
`StateExclusive`, and `f.Check` answers true when it is set. `inIDSet` is true
if and only if the ID occurs in the list, and filtering twice gives what
filtering once gives. -/
theorem filterConnections_exact (fs : FilterStates) (base : List DalConnection)
    (f : DalConnectionFilter) :
    (∀ (set : List Nat) (target : Nat), inIDSet set target = true ↔ target ∈ set) ∧
    (∃ p : DalConnection → Bool,
      (∀ conn, p conn = true ↔ satisfies fs f conn) ∧
      filterConnections fs base f = base.filter p) ∧
    (filterConnections fs base f).Sublist base ∧
    (∀ conn, conn ∈ filterConnections fs base f ↔ conn ∈ base ∧ satisfies fs f conn) ∧
    filterConnections fs (filterConnections fs base f) f = filterConnections fs base f := by
  refine ⟨inIDSet_iff, ⟨includes fs f, includes_iff fs f, filterConnections_eq_filter fs base f⟩,
    ?_, ?_, ?_⟩
  · rw [filterConnections_eq_filter]
    exact List.filter_sublist base
  · intro conn
    rw [filterConnections_eq_filter, List.mem_filter, includes_iff]
  · rw [filterConnections_eq_filter, filterConnections_eq_filter, List.filter_filter]
    congr 1
    funext conn
    simp

end rest

/-! ## The denied read and the DSN without a separator -/

namespace service

open types

/-- C21: when the read check denies a stored connection, `FindByID` returns the
not-allowed-to-read error together with the denied record, not a nil connection.
For a non-zero ID whose lookup gives the record `q` and a check that answers
false, the named result `q`, which the lookup assigned, is returned as it is
with the error (which carries the record in its properties as well); the calls
made are the lookup, the check and the recording of the action. So it is for the
record 5 of a store under an access controller that denies every read. -/
theorem FindByID_denied_returns_record {S M : Type} (c : Collaborators S M)
    (svc : dalConnection) (st : Sys S M) (ID : Nat) (q : DalConnection) :
    (ID ≠ 0 → c.LookupDalConnectionByID st.store ID = Except.ok q →
      c.CanReadDalConnection q = false →
      FindByID c svc st ID =
        ((some q,
            some (Error.DalConnectionErrNotAllowedToRead { noProps with connection := some q })),
          { st with
            events := st.events ++
              [Event.LookupDalConnectionByID ID,
                Event.CanReadDalConnection q,
                Event.recordAction Action.DalConnectionActionLookup
                  (some (Error.DalConnectionErrNotAllowedToRead
                    { noProps with connection := some q }))] })) ∧
    (FindByID (sample.collaborators false) { primaryConnection := sample.record 0 }
        sample.sys 5).1 =
      (some (sample.record 5),
        some (Error.DalConnectionErrNotAllowedToRead
          { noProps with connection := some (sample.record 5) })) ∧
    (FindByID (sample.collaborators false) { primaryConnection := sample.record 0 }
        sample.sys 5).1.1 ≠ none := by
  refine ⟨?_, by decide, by decide⟩
  intro hid hl hac
  simp only [FindByID, hid, hl, hac, recordAction, Sys.emit, Bool.not_false, if_true,
    if_false, List.append_assoc, List.cons_append, List.nil_append]

end service

namespace dal

/-- C22 (amended): outside development mode a non-empty DSN without `://` is, as a
whole, the store type `connect` looks up; there is no fallback to `mysql`. When
a connector is bound to that very string it is invoked with the DSN and its
result returned; when none is, whatever else is bound, `connect` returns no
connection and the unknown-store-type error made from the DSN, invoking nothing.
The message of that error is `unknown store type used: ` followed by the
Go-quoted DSN and ` (check your storage configuration)`; it contains the DSN
itself when the DSN consists of printable characters other than the double quote
and the backslash. -/
theorem connect_schemeless_dsn (w : World) (cp : ConnectionParams) (cc : List Capability)
    (dsn : Str) (wide : Char → Bool)
    (hT : cp.Type_ = dsnType)
    (hD : assertString (mapIndex cp.Params "dsn".toList) = some dsn)
    (hne : dsn ≠ []) (hno : strings.Contains dsn schemeSep = false) :
    (∀ f, w.registeredConnectors dsn = some f →
      connect w false cp cc =
        (Outcome.ret (f dsn cc).1 (f dsn cc).2,
          { w with calls := w.calls ++ [⟨dsn, dsn, cc⟩] })) ∧
    (w.registeredConnectors dsn = none →
      connect w false cp cc = (Outcome.ret none (some (errUnknownStoreType dsn)), w)) ∧
    (errUnknownStoreType dsn).Error wide =
      "unknown store type used: ".toList ++ strconv.Quote wide dsn ++
        " (check your storage configuration)".toList ∧
    strconv.Quote wide dsn <:+: (errUnknownStoreType dsn).Error wide ∧
    ((∀ c ∈ dsn, strconv.IsPrint wide c = true ∧ c ≠ Char.ofNat 34 ∧ c ≠ Char.ofNat 92) →
      dsn <:+: (errUnknownStoreType dsn).Error wide) := by
  have hS : strings.SplitN (preparedDSN w false dsn).1 schemeSep 2 = dsn :: [] := by
    rw [preparedDSN_nondev]
    exact strings.SplitN_two_of_none (strings.Contains_eq_false.mp hno)
  have hst : storeTypeOf dsn = dsn := by simp [storeTypeOf, hne]
  refine ⟨?_, ?_, rfl, ?_, ?_⟩
  · intro f hf
    rw [connect_dsn_some w false cp cc dsn dsn [] f hT hD hS (by rw [hst]; exact hf), hst]
    rfl
  · intro hn
    rw [connect_dsn_none w false cp cc dsn dsn [] hT hD hS (by rw [hst]; exact hn), hst]
    rfl
  · rw [Error_errUnknownStoreType]
    exact ⟨"unknown store type used: ".toList, " (check your storage configuration)".toList, rfl⟩
  · intro hplain
    rw [Error_errUnknownStoreType, strconv.Quote_plain wide dsn hplain]
    refine ⟨"unknown store type used: ".toList ++ [Char.ofNat 34],
      [Char.ofNat 34] ++ " (check your storage configuration)".toList, ?_⟩
    simp only [List.append_assoc]

set_option maxRecDepth 100000 in
/-- Witness of C22: the legacy DSN `user:pass@tcp(host)/db` in a world where only
`mysql` is bound: no connector is invoked and the message of the error holds the
whole DSN. -/
theorem connect_schemeless_dsn_witness :
    (NewDSNConnection "user:pass@tcp(host)/db".toList).Type_ = dsnType ∧
    assertString (mapIndex (NewDSNConnection "user:pass@tcp(host)/db".toList).Params
      "dsn".toList) = some "user:pass@tcp(host)/db".toList ∧
    "user:pass@tcp(host)/db".toList ≠ [] ∧
    strings.Contains "user:pass@tcp(host)/db".toList schemeSep = false ∧
    sample.mysqlWorld.registeredConnectors "mysql".toList = some sample.echoConnector ∧
    sample.mysqlWorld.registeredConnectors "user:pass@tcp(host)/db".toList = none ∧
    connect sample.mysqlWorld false (NewDSNConnection "user:pass@tcp(host)/db".toList) [] =
      (Outcome.ret none (some (errUnknownStoreType "user:pass@tcp(host)/db".toList)),
        sample.mysqlWorld) ∧
    "user:pass@tcp(host)/db".toList <:+:
      (errUnknownStoreType "user:pass@tcp(host)/db".toList).Error (fun _ => false) := by
  have h := connect_schemeless_dsn sample.mysqlWorld
    (NewDSNConnection "user:pass@tcp(host)/db".toList) [] "user:pass@tcp(host)/db".toList
    (fun _ => false) rfl (by decide) (by decide) (by decide)
  exact ⟨rfl, by decide, by decide, by decide, rfl, rfl, h.2.1 rfl, h.2.2.2.2 (by decide)⟩

set_option maxRecDepth 100000 in
/-- Counterexample to C22 as stated: the DSN `user:p"ss@tcp(host)/db` holds no
`://` and is bound to no connector; `connect` fails with the unknown-store-type
error, whose message, for every table of wide printable characters, is
`unknown store type used: "user:p\\"ss@tcp(host)/db" (check your storage
configuration)`, in which the DSN itself does not occur. -/
theorem connect_schemeless_dsn_counterexample :
    strings.Contains
      ("user:p".toList ++ [Char.ofNat 34] ++ "ss@tcp(host)/db".toList) schemeSep = false ∧
    sample.emptyWorld.registeredConnectors
      ("user:p".toList ++ [Char.ofNat 34] ++ "ss@tcp(host)/db".toList) = none ∧
    (connect sample.emptyWorld false
        (NewDSNConnection ("user:p".toList ++ [Char.ofNat 34] ++ "ss@tcp(host)/db".toList))
        []).1 =
      Outcome.ret none
        (some (errUnknownStoreType
          ("user:p".toList ++ [Char.ofNat 34] ++ "ss@tcp(host)/db".toList))) ∧
    ∀ wide : Char → Bool,
      ¬ (("user:p".toList ++ [Char.ofNat 34] ++ "ss@tcp(host)/db".toList) <:+:
        (errUnknownStoreType
          ("user:p".toList ++ [Char.ofNat 34] ++ "ss@tcp(host)/db".toList)).Error wide) := by
  refine ⟨by decide, rfl, by decide, ?_⟩
  intro wide
  have hmsg : (errUnknownStoreType
      ("user:p".toList ++ [Char.ofNat 34] ++ "ss@tcp(host)/db".toList)).Error wide =
      "unknown store type used: ".toList ++
        ([Char.ofNat 34] ++ "user:p".toList ++ [Char.ofNat 92, Char.ofNat 34] ++
          "ss@tcp(host)/db".toList ++ [Char.ofNat 34]) ++
        " (check your storage configuration)".toList := by
    rfl
  rw [hmsg]
  decide

end dal
